import Mathlib

/-!
# Yield-Vats tip pipeline (`public/app.js`)

A shallow embedding of the payment pipeline of `public/app.js`:
amount parsing, recipient validation, ERC-20 call encoding and the
`sendTip` orchestration, followed by the properties proved about them.

JavaScript strings are modelled as `List Char`; every character the
functions below inspect is ASCII, where code units and code points agree.
JavaScript `BigInt` values that are known to be non-negative are `Nat`.
-/

namespace Yield

/-! ## Constants (app.js lines 10-14) -/

/-- `USDC_CONTRACT`, app.js line 10. -/
def USDC_CONTRACT : List Char := "0x833589fCD6eDb6E08f4c7C32D4f71b54bdA02913".toList

/-- `USDC_DECIMALS`, app.js line 11. -/
def USDC_DECIMALS : Nat := 6

/-- `BUILDER_CODE`, app.js line 13. -/
def BUILDER_CODE : List Char := "bc_4tcf5clw".toList

/-- `RECIPIENT`, app.js line 14. -/
def RECIPIENT : List Char := "0x5eC6AF0798b25C563B102d3469971f1a8d598121".toList

deriving instance DecidableEq for Except

/-! ## JavaScript string primitives used by the source -/

/-- The class `\d` of a regular expression without the `u` flag: `0`-`9`. -/
def isDigit (c : Char) : Bool := decide (48 ≤ c.toNat) && decide (c.toNat ≤ 57)

/-- The class `[0-9a-fA-F]`. -/
def isHexChar (c : Char) : Bool :=
  isDigit c || (decide (97 ≤ c.toNat) && decide (c.toNat ≤ 102))
    || (decide (65 ≤ c.toNat) && decide (c.toNat ≤ 70))

/-- Code points removed by `String.prototype.trim`: the ECMAScript
`WhiteSpace` and `LineTerminator` productions. -/
def isJsWhitespace (c : Char) : Bool :=
  let n := c.toNat
  decide (n = 0x09) || decide (n = 0x0A) || decide (n = 0x0B) || decide (n = 0x0C)
    || decide (n = 0x0D) || decide (n = 0x20) || decide (n = 0xA0) || decide (n = 0x1680)
    || (decide (0x2000 ≤ n) && decide (n ≤ 0x200A)) || decide (n = 0x2028)
    || decide (n = 0x2029) || decide (n = 0x202F) || decide (n = 0x205F)
    || decide (n = 0x3000) || decide (n = 0xFEFF)

/-- `s.trim()`. -/
def trim (s : List Char) : List Char :=
  ((s.dropWhile isJsWhitespace).reverse.dropWhile isJsWhitespace).reverse

/-- `s.split(sep)` for a one-character separator: the pieces between the
occurrences of `sep`, always at least one piece. -/
def splitOn (sep : Char) : List Char → List (List Char)
  | [] => [[]]
  | c :: cs =>
    if c = sep then [] :: splitOn sep cs
    else
      match splitOn sep cs with
      | [] => [[c]]
      | p :: ps => (c :: p) :: ps

/-- `s.padStart(n, fill)` for a one-character `fill`. -/
def padStart (s : List Char) (n : Nat) (fill : Char) : List Char :=
  List.replicate (n - s.length) fill ++ s

/-- `s.padEnd(n, fill)` for a one-character `fill`. -/
def padEnd (s : List Char) (n : Nat) (fill : Char) : List Char :=
  s ++ List.replicate (n - s.length) fill

/-- `s.startsWith(p)`. -/
def startsWith : List Char → List Char → Bool
  | _, [] => true
  | [], _ :: _ => false
  | c :: cs, p :: ps => decide (c = p) && startsWith cs ps

/-- `s.includes(p)`. -/
def includes : List Char → List Char → Bool
  | [], p => p.isEmpty
  | c :: cs, p => startsWith (c :: cs) p || includes cs p

/-- `s.toLowerCase()` on the ASCII range (the only range the pipeline
lower-cases: the argument has passed `isAddressLike`). -/
def toLowerCase (s : List Char) : List Char := s.map Char.toLower

/-- `BigInt(s)` for a string of decimal digits (`BigInt("")` is `0n`,
leading zeros are allowed). -/
def bigIntOfDecimal (s : List Char) : Nat :=
  s.foldl (fun acc c => 10 * acc + (c.toNat - 48)) 0

/-- The character of one hexadecimal digit, lower case, as `toString(16)`
writes it. -/
def hexDigitChar (d : Nat) : Char :=
  if d < 10 then Char.ofNat (48 + d) else Char.ofNat (87 + d)

/-- Digit loop of `toString(16)`: most significant digit first. -/
def toString16Core : Nat → Nat → List Char → List Char
  | 0, _, acc => acc
  | fuel + 1, n, acc =>
    let acc1 := hexDigitChar (n % 16) :: acc
    if n / 16 = 0 then acc1 else toString16Core fuel (n / 16) acc1

/-- `value.toString(16)` for a non-negative `BigInt`: lower-case digits,
no leading zero, `"0"` for zero. The fuel `n + 1` always suffices. -/
def toString16 (n : Nat) : List Char := toString16Core (n + 1) n []

/-! ## Utilities (app.js lines 23-74) -/

/-- `strip0x`, app.js lines 27-29. -/
def strip0x (hex : List Char) : List Char :=
  if startsWith hex ['0', 'x'] then hex.drop 2 else hex

/-- `pad32`, app.js lines 31-33. -/
def pad32 (hexNo0x : List Char) : List Char := padStart hexNo0x 64 '0'

/-- `isAddressLike`, app.js lines 35-37: the test of
`/^0x[0-9a-fA-F]{40}$/` (in JavaScript `$` matches only at the very end). -/
def isAddressLike (addr : List Char) : Bool :=
  match addr with
  | '0' :: 'x' :: body => decide (body.length = 40) && body.all isHexChar
  | _ => false

/-- An `Error` value as the pipeline observes it: the `code` property
(when it is a number), the `message` property (empty when absent or
falsy) and `text`, the value of `String(e || "")`. -/
structure JsError where
  code : Option Int
  message : List Char
  text : List Char
deriving DecidableEq, Repr

/-- `new Error(message)`. -/
def newError (message : String) : JsError :=
  { code := none, message := message.toList, text := "Error: ".toList ++ message.toList }

/-- The all-zero address literal of app.js line 45. -/
def zeroAddress : List Char := "0x0000000000000000000000000000000000000000".toList

/-- `validateRecipientOrThrow`, app.js lines 43-47. -/
def validateRecipientOrThrow (addr : List Char) : Except JsError (List Char) :=
  if !isAddressLike addr then
    .error (newError "Recipient address is not a valid 20-byte hex address.")
  else if addr = zeroAddress then
    .error (newError "Recipient cannot be zero address.")
  else .ok addr

/-- The test of `/^\d+(\.\d+)?$/` (app.js line 53): the greedy `\d+` takes
every leading digit; what follows is the end, or a point and one or more
digits up to the end. -/
def isPlainDecimal (s : List Char) : Bool :=
  let whole := s.takeWhile isDigit
  let rest := s.dropWhile isDigit
  !whole.isEmpty &&
    (match rest with
     | [] => true
     | c :: frac => decide (c = '.') && !frac.isEmpty && frac.all isDigit)

/-- `parseUsdToUsdcUnits`, app.js lines 49-60. -/
def parseUsdToUsdcUnits (usdString : List Char) : Except JsError Nat :=
  let s := trim usdString
  if s.isEmpty then .error (newError "Enter an amount.")
  else if !isPlainDecimal s then .error (newError "Amount must be a number.")
  else
    let parts := splitOn '.' s
    let whole := parts.headD []
    let frac := (parts.drop 1).headD []
    if frac.length > USDC_DECIMALS then
      .error (newError "USDC supports up to 6 decimal places.")
    else
      let fracPadded := padEnd frac USDC_DECIMALS '0'
      let units := bigIntOfDecimal whole * 10 ^ USDC_DECIMALS
        + bigIntOfDecimal (if fracPadded.isEmpty then ['0'] else fracPadded)
      if units ≤ 0 then .error (newError "Amount must be greater than 0.")
      else .ok units

/-- `encodeErc20TransferData`, app.js lines 68-74. -/
def encodeErc20TransferData (to_ : List Char) (amountUnits : Nat) : List Char :=
  let selector := "a9059cbb".toList
  let toPadded := pad32 (toLowerCase (strip0x to_))
  let amtPadded := pad32 (toString16 amountUnits)
  "0x".toList ++ selector ++ toPadded ++ amtPadded

/-! ## Tip state and the wallet channel (app.js lines 117-130, 217-260) -/

/-- The configured constants a run of the pipeline reads. A missing
(`null`, `undefined`) string constant is the empty string: both are falsy. -/
structure Config where
  USDC_CONTRACT : List Char
  BUILDER_CODE : List Char
  RECIPIENT : List Char
deriving DecidableEq, Repr

/-- The constants of app.js lines 10-14. -/
def appConfig : Config :=
  { USDC_CONTRACT := USDC_CONTRACT, BUILDER_CODE := BUILDER_CODE, RECIPIENT := RECIPIENT }

/-- `state.tip`, app.js lines 124-129. -/
structure TipState where
  preset : Nat
  custom : List Char
  cta : List Char
  busy : Bool
deriving DecidableEq, Repr

/-- The initial `state.tip` of app.js lines 124-129. -/
def initialTip : TipState :=
  { preset := 5, custom := [], cta := "Send USDC".toList, busy := false }

/-- One element of `calls` in the `wallet_sendCalls` payload. -/
structure Call where
  to_ : List Char
  value : List Char
  data : List Char
deriving DecidableEq, Repr

/-- The `wallet_sendCalls` payload, app.js lines 283-298
(`dataSuffix` is `capabilities.dataSuffix`). -/
structure Payload where
  version : List Char
  from_ : List Char
  chainId : List Char
  atomicRequired : Bool
  calls : List Call
  dataSuffix : List Char
deriving DecidableEq, Repr

/-- The requests `sendTip` sends through `provider.request`, each with what
its `params` carry: the chain asked for, the bundle submitted. -/
inductive Method where
  | eth_chainId
  | wallet_switchEthereumChain (chainId : List Char)
  | eth_requestAccounts
  | wallet_sendCalls (payload : Payload)
deriving DecidableEq, Repr

/-- The observable effects of a run, in the order they happen. A `request`
records the method and, when the request was rejected, the error. -/
inductive Event where
  | toast (message : List Char) (kind : List Char)
  | getEthereumProvider
  | request (method : Method) (failure : Option JsError)
  | setCta (text : List Char) (busy : Bool)
  | sleep (ms : Nat)
deriving DecidableEq, Repr

/-- How one wallet provider settles each request of a run. `sendTip` sends
each method at most once and in a fixed order, so one answer per method
describes the provider. `eth_chainId` answers any value, compared with
`===` against `"0x2105"`; `eth_requestAccounts` answers the account list
(an absent list behaves like the empty one under `accounts?.[0]`). -/
structure Provider where
  eth_chainId : Except JsError (List Char)
  wallet_switchEthereumChain : Except JsError Unit
  eth_requestAccounts : Except JsError (List (List Char))
  wallet_sendCalls : Payload → Except JsError (List Char)

/-- What surrounds the page: the host SDK's provider lookup (it may throw,
or give a falsy value), `window.ethereum`, and the external
`Attribution.toDataSuffix`. -/
structure Host where
  sdkProvider : Except JsError (Option Provider)
  windowEthereum : Option Provider
  toDataSuffix : List (List Char) → List Char

/-- The tip state together with the effects observed so far. -/
structure World where
  tip : TipState
  trace : List Event
deriving DecidableEq, Repr

/-- An `async` computation run to completion: it resolves with a value or
rejects with an error, and leaves a world behind either way. -/
def Run (α : Type) : Type := World → Except JsError α × World

/-- Resolve with `a`. -/
def Run.pure {α : Type} (a : α) : Run α := fun w => (.ok a, w)

/-- Sequencing (`await`): a rejection skips the rest. -/
def Run.bind {α β : Type} (x : Run α) (f : α → Run β) : Run β := fun w =>
  match x w with
  | (.ok a, w1) => f a w1
  | (.error e, w1) => (.error e, w1)

/-- A `throw` statement. -/
def Run.throw {α : Type} (e : JsError) : Run α := fun w => (.error e, w)

/-- A `try` block with its `catch` handler. -/
def Run.tryCatch {α : Type} (x : Run α) (handler : JsError → Run α) : Run α := fun w =>
  match x w with
  | (.ok a, w1) => (.ok a, w1)
  | (.error e, w1) => handler e w1

instance : Monad Run where
  pure := Run.pure
  bind := Run.bind

/-- Record one effect. -/
def emit (ev : Event) : Run Unit := fun w => (.ok (), { w with trace := w.trace ++ [ev] })

/-- Lift a synchronous function that returns or throws. -/
def liftExcept {α : Type} (r : Except JsError α) : Run α := fun w => (r, w)

/-- The rejection of a settled request, if any. -/
def failureOf {α : Type} : Except JsError α → Option JsError
  | .ok _ => none
  | .error e => some e

/-- The call `provider.request` for `method`, settled with `answer`. -/
def request {α : Type} (method : Method) (answer : Except JsError α) : Run α := fun w =>
  (answer, { w with trace := w.trace ++ [Event.request method (failureOf answer)] })

/-- `toast`, app.js lines 80-87: an effect on the page only. -/
def toast (message : List Char) (kind : List Char) : Run Unit := emit (.toast message kind)

/-- `sleep`, app.js lines 76-78. -/
def sleep (ms : Nat) : Run Unit := emit (.sleep ms)

/-- `canSendTips`, app.js lines 217-223. -/
def canSendTips (cfg : Config) : Bool :=
  if cfg.BUILDER_CODE.isEmpty || includes cfg.BUILDER_CODE "TODO".toList then false
  else if cfg.RECIPIENT.isEmpty || includes cfg.RECIPIENT "TODO".toList then false
  else if !isAddressLike cfg.RECIPIENT then false
  else true

/-- The `disabled` property `render` gives the call-to-action button,
app.js line 200. -/
def ctaDisabled (cfg : Config) (tip : TipState) : Bool := tip.busy || !canSendTips cfg

/-- `setCta`, app.js lines 225-229 (`render` reads the state, it does not
change `state.tip`). -/
def setCta (text : List Char) (busy : Bool) : Run Unit := fun w =>
  (.ok (), { tip := { w.tip with cta := text, busy := busy },
             trace := w.trace ++ [Event.setCta text busy] })

/-- `getProvider`, app.js lines 236-246. -/
def getProvider (host : Host) : Run Provider := do
  emit .getEthereumProvider
  match host.sdkProvider with
  | .ok (some p) => pure p
  | _ =>
    match host.windowEthereum with
    | some p => pure p
    | none =>
      Run.throw (newError
        "No Ethereum provider found. Open this inside a Farcaster/Base Mini App host.")

/-- `ensureBaseMainnet`, app.js lines 248-260. -/
def ensureBaseMainnet (provider : Provider) : Run Unit := do
  let chainId ← request .eth_chainId provider.eth_chainId
  if chainId = "0x2105".toList then pure ()
  else
    Run.tryCatch
      (request (.wallet_switchEthereumChain "0x2105".toList)
        provider.wallet_switchEthereumChain)
      (fun _ => Run.throw (newError
        "Please switch to Base Mainnet (0x2105) in your wallet to send USDC."))

/-- The text the `catch` of `sendTip` tests: `String(e?.message || e || "")`,
app.js line 316. -/
def errorText (e : JsError) : List Char := if e.message.isEmpty then e.text else e.message

/-- The test `/user rejected|rejected/i.test(msg)`, app.js line 317: without
the `u` flag the `i` flag folds case on ASCII letters only. -/
def matchesRejected (msg : List Char) : Bool :=
  includes (msg.map Char.toLower) "user rejected".toList
    || includes (msg.map Char.toLower) "rejected".toList

/-- `sendTip`, app.js lines 262-325. -/
def sendTip (cfg : Config) (host : Host) (amountUsd : List Char) : Run (Option (List Char)) := do
  if !canSendTips cfg then
    toast "Set a real <b>BUILDER_CODE</b> + <b>RECIPIENT</b> to enable tipping.".toList
      "warn".toList
    return none
  else
    let provider ← getProvider host
    ensureBaseMainnet provider
    let accounts ← request .eth_requestAccounts provider.eth_requestAccounts
    let from_ := accounts.headD []
    if from_.isEmpty then Run.throw (newError "No account connected.")
    else
      let recipient ← liftExcept (validateRecipientOrThrow cfg.RECIPIENT)
      let units ← liftExcept (parseUsdToUsdcUnits amountUsd)
      let data := encodeErc20TransferData recipient units
      let dataSuffix := host.toDataSuffix [cfg.BUILDER_CODE]
      let payload : Payload :=
        { version := "2.0.0".toList
          from_ := from_
          chainId := "0x2105".toList
          atomicRequired := true
          calls := [{ to_ := cfg.USDC_CONTRACT, value := "0x0".toList, data := data }]
          dataSuffix := dataSuffix }
      setCta "Preparing tip…".toList true
      sleep 1200
      setCta "Confirm in wallet".toList true
      Run.tryCatch
        (do
          let result ← request (.wallet_sendCalls payload) (provider.wallet_sendCalls payload)
          setCta "Sending…".toList true
          sleep 800
          setCta "Send again".toList false
          toast ("Tip sent: <b>$".toList ++ amountUsd ++ "</b> USDC".toList) "ok".toList
          return some result)
        (fun e =>
          if e.code = some 4001 || matchesRejected (errorText e) then do
            setCta "Send USDC".toList false
            toast "Tip cancelled (user rejected).".toList "warn".toList
            return none
          else do
            setCta "Send USDC".toList false
            Run.throw e)

/-- Lines 268-298 of `sendTip` on their own: the steps before the first
`setCta`, yielding the provider and the payload. Used to state lemmas about
`sendTip`; `sendTip_eq` relates the two. -/
def prepareTip (cfg : Config) (host : Host) (amountUsd : List Char) :
    Run (Provider × Payload) := do
  let provider ← getProvider host
  ensureBaseMainnet provider
  let accounts ← request .eth_requestAccounts provider.eth_requestAccounts
  let from_ := accounts.headD []
  if from_.isEmpty then Run.throw (newError "No account connected.")
  else
    let recipient ← liftExcept (validateRecipientOrThrow cfg.RECIPIENT)
    let units ← liftExcept (parseUsdToUsdcUnits amountUsd)
    let data := encodeErc20TransferData recipient units
    let dataSuffix := host.toDataSuffix [cfg.BUILDER_CODE]
    pure (provider,
      { version := "2.0.0".toList
        from_ := from_
        chainId := "0x2105".toList
        atomicRequired := true
        calls := [{ to_ := cfg.USDC_CONTRACT, value := "0x0".toList, data := data }]
        dataSuffix := dataSuffix })

/-- Lines 300-324 of `sendTip` on their own: the steps from the first
`setCta` on. Used to state lemmas about `sendTip`. -/
def submitTip (provider : Provider) (payload : Payload) (amountUsd : List Char) :
    Run (Option (List Char)) := do
  setCta "Preparing tip…".toList true
  sleep 1200
  setCta "Confirm in wallet".toList true
  Run.tryCatch
    (do
      let result ← request (.wallet_sendCalls payload) (provider.wallet_sendCalls payload)
      setCta "Sending…".toList true
      sleep 800
      setCta "Send again".toList false
      toast ("Tip sent: <b>$".toList ++ amountUsd ++ "</b> USDC".toList) "ok".toList
      return some result)
    (fun e =>
      if e.code = some 4001 || matchesRejected (errorText e) then do
        setCta "Send USDC".toList false
        toast "Tip cancelled (user rejected).".toList "warn".toList
        return none
      else do
        setCta "Send USDC".toList false
        Run.throw e)

/-- The provider `getProvider` settles on, if any: the host's when the SDK
hands one out, `window.ethereum` otherwise. -/
def discover (host : Host) : Option Provider :=
  match host.sdkProvider with
  | .ok (some p) => some p
  | _ => host.windowEthereum

/-- The error `getProvider` throws, app.js line 245. -/
def noProviderError : JsError :=
  newError "No Ethereum provider found. Open this inside a Farcaster/Base Mini App host."

/-- The error `ensureBaseMainnet` throws, app.js line 258. -/
def wrongNetworkError : JsError :=
  newError "Please switch to Base Mainnet (0x2105) in your wallet to send USDC."

/-- The error of app.js line 273. -/
def noAccountError : JsError := newError "No account connected."

/-- The payload of app.js lines 283-298 for the given sender and call data. -/
def tipPayload (cfg : Config) (host : Host) (sender : List Char) (data : List Char) : Payload :=
  { version := "2.0.0".toList
    from_ := sender
    chainId := "0x2105".toList
    atomicRequired := true
    calls := [{ to_ := cfg.USDC_CONTRACT, value := "0x0".toList, data := data }]
    dataSuffix := host.toDataSuffix [cfg.BUILDER_CODE] }

/-- The provider `p` ends `ensureBaseMainnet` on Base Mainnet, leaving the
requests `net` behind: it was there already, or it accepted the switch. -/
def NetworkReady (p : Provider) (net : List Event) : Prop :=
  (p.eth_chainId = .ok "0x2105".toList ∧ net = [Event.request .eth_chainId none])
    ∨ (∃ c, p.eth_chainId = .ok c ∧ c ≠ "0x2105".toList
        ∧ p.wallet_switchEthereumChain = .ok ()
        ∧ net = [Event.request .eth_chainId none,
            Event.request (.wallet_switchEthereumChain "0x2105".toList) none])

/-- The effects of the steps before the first `setCta`: provider discovery
and the requests `eth_chainId`, `wallet_switchEthereumChain` and
`eth_requestAccounts`. -/
def isPreludeEvent : Event → Bool
  | .getEthereumProvider => true
  | .request .eth_chainId _ => true
  | .request (.wallet_switchEthereumChain _) _ => true
  | .request .eth_requestAccounts _ => true
  | _ => false

/-- The three effects that open the submission, app.js lines 301-304. -/
def openingEvents : List Event :=
  [Event.setCta "Preparing tip…".toList true, Event.sleep 1200,
   Event.setCta "Confirm in wallet".toList true]

/-- One run of `sendTip` from the tip state `tip`, with an empty record of
effects: the outcome, the tip state left behind and the effects. -/
def runSendTip (cfg : Config) (host : Host) (amountUsd : List Char) (tip : TipState) :
    Except JsError (Option (List Char)) × World :=
  sendTip cfg host amountUsd { tip := tip, trace := [] }

/-- The handler of the call-to-action button, app.js lines 604-616: the
amount is the trimmed custom text, or the preset when that is empty; every
error of `sendTip` is caught and shown as a toast. -/
def ctaClick (cfg : Config) (host : Host) : Run Unit := fun w =>
  Run.tryCatch
    (if !canSendTips cfg then
      toast "Replace BUILDER_CODE + RECIPIENT in <b>app.js</b> before sending.".toList
        "warn".toList
    else do
      let amount :=
        if (trim w.tip.custom).isEmpty then (Nat.repr w.tip.preset).toList
        else trim w.tip.custom
      let _ ← sendTip cfg host amount
      pure ())
    (fun e => toast ("Error: ".toList ++ errorText e) "error".toList) w

/-! ## Sample wallets -/

/-- A wallet that is on Base, has one account and approves. -/
def okProvider : Provider :=
  { eth_chainId := .ok "0x2105".toList
    wallet_switchEthereumChain := .ok ()
    eth_requestAccounts := .ok ["0x1111111111111111111111111111111111111111".toList]
    wallet_sendCalls := fun _ => .ok "0xbundle".toList }

/-- A host whose SDK hands out `okProvider`. -/
def okHost : Host :=
  { sdkProvider := .ok (some okProvider), windowEthereum := none, 
    toDataSuffix := fun _ => "0xsuffix".toList }

/-! ## Specification-side notions -/

/-- The integer a string of decimal digits denotes, most significant digit
first (the empty string denotes 0). -/
def decimalValue : List Char → Nat
  | [] => 0
  | c :: cs => (c.toNat - 48) * 10 ^ cs.length + decimalValue cs

/-- An amount text of the form `digits` (then `frac` is empty) or
`digits.digits`, with `whole` and `frac` its two digit strings. -/
def IsDecimalText (s whole frac : List Char) : Prop :=
  whole ≠ [] ∧ (∀ c ∈ whole, isDigit c = true) ∧ (∀ c ∈ frac, isDigit c = true) ∧
    ((frac = [] ∧ s = whole) ∨ (frac ≠ [] ∧ s = whole ++ '.' :: frac))

/-- The rational number the amount text with parts `whole` and `frac`
denotes. -/
def amountValue (whole frac : List Char) : ℚ :=
  (decimalValue whole : ℚ) + (decimalValue frac : ℚ) / 10 ^ frac.length

/-- The fractional part right-padded with zeros to 6 digits. -/
def fracPadded6 (frac : List Char) : List Char :=
  frac ++ List.replicate (6 - frac.length) '0'

/-- The failure condition of amount parsing in the words of its contract,
read on the text as given: empty, or a character other than digits and
points, or more than one point, or more than 6 characters after the point,
or every digit a zero. -/
def claimedParseFailure (text : List Char) : Bool :=
  text.isEmpty
    || text.any (fun c => !isDigit c && !decide (c = '.'))
    || decide (1 < text.count '.')
    || decide (6 < ((text.dropWhile (fun c => !decide (c = '.'))).drop 1).length)
    || text.all (fun c => !isDigit c || decide (c = '0'))

/-- The shape `0x` followed by exactly 40 hexadecimal characters of either
letter case. -/
def HasAddressShape (s : List Char) : Prop :=
  ∃ body, s = '0' :: 'x' :: body ∧ body.length = 40
    ∧ ∀ c ∈ body, c ∈ "0123456789abcdefABCDEF".toList

/-- The value of one hexadecimal digit character. -/
def hexDigitValue (c : Char) : Nat :=
  if c.toNat ≤ 57 then c.toNat - 48
  else if c.toNat ≤ 70 then c.toNat - 55
  else c.toNat - 87

/-- The number a string of hexadecimal digits denotes, read big-endian. -/
def hexValue : List Char → Nat
  | [] => 0
  | c :: cs => hexDigitValue c * 16 ^ cs.length + hexValue cs

/-- The text `s` contains `p` as a contiguous piece. -/
def Contains (s p : List Char) : Prop := ∃ pre post, s = pre ++ p ++ post

/-- The message matches `rejected` case-insensitively: it contains a piece
that reads `rejected` once its ASCII capitals are lowered. -/
def MatchesRejectedIgnoringCase (msg : List Char) : Prop :=
  ∃ pre mid post, msg = pre ++ mid ++ post ∧ mid.map Char.toLower = "rejected".toList

/-- A wallet on Base with one account whose `wallet_sendCalls` fails with
`e`. -/
def failingSend (e : JsError) : Provider :=
  { okProvider with wallet_sendCalls := fun _ => .error e }

/-- A host whose SDK hands out the provider `p`. -/
def hostOf (p : Provider) : Host :=
  { sdkProvider := .ok (some p), windowEthereum := none,
    toDataSuffix := fun _ => "0xsuffix".toList }

/-- A wallet on Base whose `eth_chainId` request fails with `e`. -/
def failingChainId (e : JsError) : Provider :=
  { okProvider with eth_chainId := .error e }

/-- A wallet on Ethereum mainnet whose switch request fails with `e`. -/
def failingSwitch (e : JsError) : Provider :=
  { okProvider with eth_chainId := .ok "0x1".toList, wallet_switchEthereumChain := .error e }

/-- The standard user-declined error, code 4001. -/
def userRejectedError : JsError :=
  { code := some 4001, message := "User denied the request.".toList,
    text := "Error: User denied the request.".toList }

/-- A node-side error whose message mentions a rejection, code -32000. -/
def nodeRejectedError : JsError :=
  { code := some (-32000), message := "Transaction REJECTED by the node".toList,
    text := "Error: Transaction REJECTED by the node".toList }

/-- An internal JSON-RPC error, code -32603. -/
def internalError : JsError :=
  { code := some (-32603), message := "Internal JSON-RPC error.".toList,
    text := "Error: Internal JSON-RPC error.".toList }

/-- The unknown-chain error of a switch request, code 4902. -/
def unknownChainError : JsError :=
  { code := some 4902, message := "Unrecognized chain ID.".toList,
    text := "Error: Unrecognized chain ID.".toList }

/-- The payload a run builds for the sample wallets and the amount `"5"`. -/
def samplePayload : Payload :=
  tipPayload appConfig okHost "0x1111111111111111111111111111111111111111".toList
    (encodeErc20TransferData RECIPIENT 5000000)

/-- The tip state a successful run leaves behind. -/
def tipAfterSuccess : TipState := { initialTip with cta := "Send again".toList, busy := false }

/-- The configuration of app.js with the all-zero address as recipient. -/
def zeroRecipientConfig : Config := { appConfig with RECIPIENT := zeroAddress }

/-- A tip state in the middle of an attempt: `busy` is set. -/
def busyTip : TipState := { initialTip with cta := "Confirm in wallet".toList, busy := true }

/-- The tip state after the effects `events`, starting from `tip`: each
`setCta` writes the text and the busy flag. -/
def tipAfter (tip : TipState) : List Event → TipState
  | [] => tip
  | .setCta text busy :: rest => tipAfter { tip with cta := text, busy := busy } rest
  | _ :: rest => tipAfter tip rest

/-- Every `wallet_sendCalls` request among `events` is sent while the busy
flag is set, starting from `tip`. -/
def busyAtEachSend (tip : TipState) : List Event → Bool
  | [] => true
  | .setCta text busy :: rest => busyAtEachSend { tip with cta := text, busy := busy } rest
  | .request (.wallet_sendCalls _) _ :: rest => tip.busy && busyAtEachSend tip rest
  | _ :: rest => busyAtEachSend tip rest

/-- The effect is a `wallet_sendCalls` request. -/
def isSendCalls : Event → Bool
  | .request (.wallet_sendCalls _) _ => true
  | _ => false

/-- The call-to-action states a run writes, in order: the text and the busy
flag of each `setCta`. -/
def ctaStates : List Event → List (List Char × Bool)
  | [] => []
  | .setCta text busy :: rest => (text, busy) :: ctaStates rest
  | _ :: rest => ctaStates rest

/-- Two clicks on the call-to-action with the same amount, the second
arriving while the first run is still in its prelude (awaiting the wallet,
before line 301), where `render` has not disabled the button. The effects are
listed run by run: both preludes, then both submissions; the awaits allow the
two runs to interleave further, which changes the order of their effects, not
which requests are sent. -/
def twoClicks (cfg : Config) (host : Host) (amountUsd : List Char) :
    Run (Option (List Char) × Option (List Char)) := do
  let first ← prepareTip cfg host amountUsd
  let second ← prepareTip cfg host amountUsd
  let r1 ← submitTip first.1 first.2 amountUsd
  let r2 ← submitTip second.1 second.2 amountUsd
  pure (r1, r2)

/-! # Properties -/

/-! ## Amount parsing -/

theorem isDigit_not_whitespace (c : Char) (h : isDigit c = true) :
    isJsWhitespace c = false := by
  simp only [isDigit, Bool.and_eq_true, decide_eq_true_eq] at h
  simp only [isJsWhitespace, Bool.or_eq_false_iff, Bool.and_eq_false_iff, decide_eq_false_iff_not]
  omega

theorem isDigit_ne_dot (c : Char) (h : isDigit c = true) : c ≠ '.' := by
  rintro rfl
  revert h
  decide

theorem trim_eq_self (s : List Char)
    (hh : ∀ c, s.head? = some c → isJsWhitespace c = false)
    (hl : ∀ c, s.getLast? = some c → isJsWhitespace c = false) : trim s = s := by
  unfold trim
  have h1 : s.dropWhile isJsWhitespace = s := by
    cases s with
    | nil => rfl
    | cons c cs => exact List.dropWhile_cons_of_neg (by simp [hh c rfl])
  rw [h1]
  have h2 : s.reverse.dropWhile isJsWhitespace = s.reverse := by
    rcases h : s.reverse with _ | ⟨d, ds⟩
    · rfl
    · have hd : s.getLast? = some d := by rw [← List.head?_reverse, h]; rfl
      exact List.dropWhile_cons_of_neg (by simp [hl d hd])
  rw [h2, List.reverse_reverse]

theorem splitOn_no_sep (sep : Char) (s : List Char) (h : ∀ c ∈ s, c ≠ sep) :
    splitOn sep s = [s] := by
  induction s with
  | nil => rfl
  | cons c cs ih =>
    have hc : c ≠ sep := h c (List.mem_cons_self _ _)
    have ih1 := ih (fun d hd => h d (List.mem_cons_of_mem _ hd))
    simp [splitOn, hc, ih1]

theorem splitOn_append_sep (sep : Char) (w r : List Char) (h : ∀ c ∈ w, c ≠ sep) :
    splitOn sep (w ++ sep :: r) = w :: splitOn sep r := by
  induction w with
  | nil => simp [splitOn]
  | cons c cs ih =>
    have hc : c ≠ sep := h c (List.mem_cons_self _ _)
    have ih1 := ih (fun d hd => h d (List.mem_cons_of_mem _ hd))
    simp [splitOn, hc, ih1]

theorem bigIntOfDecimal_foldl (s : List Char) (a : Nat) :
    s.foldl (fun acc c => 10 * acc + (c.toNat - 48)) a = a * 10 ^ s.length + decimalValue s := by
  induction s generalizing a with
  | nil => simp [decimalValue]
  | cons c cs ih =>
    simp only [List.foldl_cons, ih, decimalValue, List.length_cons]
    ring

theorem bigIntOfDecimal_eq (s : List Char) : bigIntOfDecimal s = decimalValue s := by
  simp [bigIntOfDecimal, bigIntOfDecimal_foldl]

theorem decimalValue_append (s t : List Char) :
    decimalValue (s ++ t) = decimalValue s * 10 ^ t.length + decimalValue t := by
  induction s with
  | nil => simp [decimalValue]
  | cons c cs ih =>
    rw [List.cons_append, decimalValue, decimalValue, ih, List.length_append]
    ring

theorem decimalValue_zeros (k : Nat) : decimalValue (List.replicate k '0') = 0 := by
  induction k with
  | zero => rfl
  | succ k ih => simp [List.replicate_succ, decimalValue, ih]

theorem decimalValue_fracPadded6 (frac : List Char) :
    decimalValue (fracPadded6 frac) = decimalValue frac * 10 ^ (6 - frac.length) := by
  simp [fracPadded6, decimalValue_append, decimalValue_zeros]

theorem isPlainDecimal_of_text (s whole frac : List Char) (h : IsDecimalText s whole frac) :
    isPlainDecimal s = true := by
  obtain ⟨hw, hwd, hfd, hs⟩ := h
  rcases hs with ⟨_, rfl⟩ | ⟨hf, rfl⟩
  · have h1 : List.takeWhile isDigit s = s := List.takeWhile_eq_self_iff.mpr hwd
    have h2 : List.dropWhile isDigit s = [] := List.dropWhile_eq_nil_iff.mpr hwd
    cases s with
    | nil => exact absurd rfl hw
    | cons c cs => simp [isPlainDecimal, h1, h2]
  · have hdot : isDigit '.' = false := by decide
    have h1 : List.takeWhile isDigit (whole ++ '.' :: frac) = whole := by
      rw [List.takeWhile_append_of_pos hwd]; simp [List.takeWhile, hdot]
    have h2 : List.dropWhile isDigit (whole ++ '.' :: frac) = '.' :: frac := by
      rw [List.dropWhile_append_of_pos hwd]; simp [List.dropWhile, hdot]
    cases whole with
    | nil => exact absurd rfl hw
    | cons c cs =>
      cases frac with
      | nil => exact absurd rfl hf
      | cons d ds =>
        simp only [isPlainDecimal, h1, h2]
        simpa using hfd

theorem text_of_isPlainDecimal (s : List Char) (h : isPlainDecimal s = true) :
    ∃ whole frac, IsDecimalText s whole frac := by
  have hsplit := List.takeWhile_append_dropWhile isDigit s
  have hwd : ∀ c ∈ List.takeWhile isDigit s, isDigit c = true :=
    fun c hc => List.mem_takeWhile_imp hc
  simp only [isPlainDecimal, Bool.and_eq_true, Bool.not_eq_true', List.isEmpty_eq_false] at h
  obtain ⟨hw, hrest⟩ := h
  rcases hr : List.dropWhile isDigit s with _ | ⟨c, frac⟩
  · refine ⟨List.takeWhile isDigit s, [], hw, hwd, by simp, Or.inl ⟨rfl, ?_⟩⟩
    rw [hr, List.append_nil] at hsplit
    exact hsplit.symm
  · rw [hr] at hrest hsplit
    simp only [Bool.and_eq_true, decide_eq_true_eq, Bool.not_eq_true', List.isEmpty_eq_false,
      List.all_eq_true] at hrest
    obtain ⟨⟨rfl, hne⟩, hall⟩ := hrest
    exact ⟨List.takeWhile isDigit s, frac, hw, hwd, hall, Or.inr ⟨hne, hsplit.symm⟩⟩

theorem splitOn_of_text (s whole frac : List Char) (h : IsDecimalText s whole frac) :
    (splitOn '.' s).headD [] = whole ∧ ((splitOn '.' s).drop 1).headD [] = frac := by
  obtain ⟨_, hwd, hfd, hs⟩ := h
  have hw1 : ∀ c ∈ whole, c ≠ '.' := fun c hc => isDigit_ne_dot c (hwd c hc)
  have hf1 : ∀ c ∈ frac, c ≠ '.' := fun c hc => isDigit_ne_dot c (hfd c hc)
  rcases hs with ⟨rfl, rfl⟩ | ⟨_, rfl⟩
  · rw [splitOn_no_sep _ _ hw1]; simp
  · rw [splitOn_append_sep _ _ _ hw1, splitOn_no_sep _ _ hf1]; simp

theorem text_ne_nil (s whole frac : List Char) (h : IsDecimalText s whole frac) : s ≠ [] := by
  obtain ⟨hw, _, _, hs⟩ := h
  rcases hs with ⟨_, rfl⟩ | ⟨_, rfl⟩
  · exact hw
  · simp

/-- What `parseUsdToUsdcUnits` does on a text whose trimmed form is a plain
decimal with parts `whole` and `frac`. -/
theorem parse_of_text (text whole frac : List Char)
    (h : IsDecimalText (trim text) whole frac) :
    parseUsdToUsdcUnits text =
      if 6 < frac.length then .error (newError "USDC supports up to 6 decimal places.")
      else if decimalValue whole * 10 ^ 6 + decimalValue (fracPadded6 frac) = 0 then
        .error (newError "Amount must be greater than 0.")
      else .ok (decimalValue whole * 10 ^ 6 + decimalValue (fracPadded6 frac)) := by
  have hne : (trim text).isEmpty = false := by
    simpa using text_ne_nil _ _ _ h
  have hpd := isPlainDecimal_of_text _ _ _ h
  obtain ⟨hwhole, hfrac⟩ := splitOn_of_text _ _ _ h
  unfold parseUsdToUsdcUnits
  simp only [hne, hpd, hwhole, hfrac, USDC_DECIMALS, Bool.false_eq_true, if_false,
    Bool.not_true, gt_iff_lt]
  by_cases hlen : 6 < frac.length
  · simp [hlen]
  · have hpad : padEnd frac 6 '0' = fracPadded6 frac := rfl
    have hpne : (fracPadded6 frac).isEmpty = false := by
      have : (fracPadded6 frac).length = 6 := by
        simp [fracPadded6]; omega
      cases hfp : fracPadded6 frac with
      | nil => rw [hfp] at this; simp at this
      | cons a b => rfl
    simp only [hlen, if_false, hpad, hpne, bigIntOfDecimal_eq, Bool.false_eq_true,
      Nat.le_zero_eq]

/-- What `parseUsdToUsdcUnits` does on a text whose trimmed form is not
empty and not a plain decimal. -/
theorem parse_of_not_text (text : List Char) (hne : trim text ≠ [])
    (h : ¬ ∃ whole frac, IsDecimalText (trim text) whole frac) :
    parseUsdToUsdcUnits text = .error (newError "Amount must be a number.") := by
  have hpd : isPlainDecimal (trim text) = false := by
    cases hp : isPlainDecimal (trim text) with
    | false => rfl
    | true => exact absurd (text_of_isPlainDecimal _ hp) h
  have hne1 : (trim text).isEmpty = false := by simpa using hne
  simp [parseUsdToUsdcUnits, hne1, hpd]

theorem parse_of_empty (text : List Char) (h : trim text = []) :
    parseUsdToUsdcUnits text = .error (newError "Enter an amount.") := by
  simp [parseUsdToUsdcUnits, h]

theorem amountValue_mul (whole frac : List Char) (hlen : frac.length ≤ 6) :
    ((decimalValue whole * 10 ^ 6 + decimalValue (fracPadded6 frac) : Nat) : ℚ)
      = amountValue whole frac * 10 ^ 6 := by
  rw [decimalValue_fracPadded6, amountValue]
  obtain ⟨m, hm⟩ : ∃ m, 6 = frac.length + m := ⟨6 - frac.length, by omega⟩
  have hm1 : 6 - frac.length = m := by omega
  have key : ∀ (W F : ℚ) (k n : ℕ),
      W * (10 ^ k * 10 ^ n) + F * 10 ^ n = (W + F / 10 ^ k) * (10 ^ k * 10 ^ n) := by
    intro W F k n
    have hk : (10 : ℚ) ^ k ≠ 0 := by positivity
    field_simp
    ring
  have h6 : (10 : ℚ) ^ 6 = 10 ^ frac.length * 10 ^ m := by
    rw [← pow_add, ← hm]
  have h6n : (10 : ℕ) ^ 6 = 10 ^ frac.length * 10 ^ m := by
    rw [← pow_add, ← hm]
  rw [hm1, h6, h6n]
  push_cast
  exact key _ _ _ _

/-- C1. For an amount text `digits` or `digits.digits` with at most 6
fractional digits and a positive value, `parseUsdToUsdcUnits` returns exactly
`W * 10^6 + F` (`W` the whole part, `F` the fractional part right-padded with
zeros to 6 digits), which is the value times `10^6` with no rounding. -/
theorem parseUsdToUsdcUnits_exact (text whole frac : List Char)
    (htext : IsDecimalText text whole frac) (hlen : frac.length ≤ 6)
    (hpos : 0 < amountValue whole frac) :
    parseUsdToUsdcUnits text
        = .ok (decimalValue whole * 10 ^ 6 + decimalValue (fracPadded6 frac))
      ∧ ((decimalValue whole * 10 ^ 6 + decimalValue (fracPadded6 frac) : Nat) : ℚ)
        = amountValue whole frac * 10 ^ 6 := by
  have hmul := amountValue_mul whole frac hlen
  refine ⟨?_, hmul⟩
  have htrim : trim text = text := by
    obtain ⟨hw, hwd, hfd, hs⟩ := htext
    apply trim_eq_self
    · intro c hc
      apply isDigit_not_whitespace
      cases whole with
      | nil => exact absurd rfl hw
      | cons a as =>
        have hca : c = a := by
          rcases hs with ⟨_, rfl⟩ | ⟨_, rfl⟩ <;> simpa using hc.symm
        exact hca ▸ hwd a (List.mem_cons_self _ _)
    · intro c hc
      apply isDigit_not_whitespace
      rcases hs with ⟨_, rfl⟩ | ⟨hf, rfl⟩
      · exact hwd c (List.mem_of_getLast?_eq_some hc)
      · rw [List.getLast?_append] at hc
        have hfl : (('.' :: frac).getLast?) = frac.getLast? := by
          cases frac with
          | nil => exact absurd rfl hf
          | cons d ds => exact List.getLast?_cons_cons
        rw [hfl] at hc
        cases hfg : frac.getLast? with
        | none =>
          cases frac with
          | nil => exact absurd rfl hf
          | cons d ds => simp [List.getLast?_eq_none_iff] at hfg
        | some d =>
          rw [hfg] at hc
          simp only [Option.or_some, Option.some.injEq] at hc
          exact hc ▸ hfd d (List.mem_of_getLast?_eq_some hfg)
  have hp := parse_of_text text whole frac (by rw [htrim]; exact htext)
  rw [hp]
  have hnot : ¬ 6 < frac.length := by omega
  have hq : (0 : ℚ) < ((decimalValue whole * 10 ^ 6 + decimalValue (fracPadded6 frac) : Nat) : ℚ) := by
    rw [hmul]; positivity
  have hnz : decimalValue whole * 10 ^ 6 + decimalValue (fracPadded6 frac) ≠ 0 := by
    intro h0
    rw [h0] at hq
    simp at hq
  rw [if_neg hnot, if_neg hnz]

theorem amountValue_pos (whole frac : List Char)
    (h : 0 < decimalValue whole + decimalValue frac) : 0 < amountValue whole frac := by
  unfold amountValue
  have hk : (0 : ℚ) < 10 ^ frac.length := by positivity
  have hw : (0 : ℚ) ≤ (decimalValue whole : ℚ) := Nat.cast_nonneg _
  have hf : (0 : ℚ) ≤ (decimalValue frac : ℚ) / 10 ^ frac.length :=
    div_nonneg (Nat.cast_nonneg _) hk.le
  rcases Nat.eq_zero_or_pos (decimalValue whole) with h0 | h0
  · have hfpos : 0 < decimalValue frac := by omega
    have : (0 : ℚ) < (decimalValue frac : ℚ) / 10 ^ frac.length :=
      div_pos (by exact_mod_cast hfpos) hk
    linarith
  · have : (0 : ℚ) < (decimalValue whole : ℚ) := by exact_mod_cast h0
    linarith

/-- Witness of C1 at `"3.5"`, `"0.000001"` and `"10"`. -/
theorem parseUsdToUsdcUnits_exact_witness :
    parseUsdToUsdcUnits "3.5".toList = .ok 3500000
      ∧ parseUsdToUsdcUnits "0.000001".toList = .ok 1
      ∧ parseUsdToUsdcUnits "10".toList = .ok 10000000 :=
  ⟨(parseUsdToUsdcUnits_exact "3.5".toList ['3'] ['5']
      ⟨by decide, by decide, by decide, Or.inr ⟨by decide, by decide⟩⟩ (by decide)
      (amountValue_pos _ _ (by decide))).1,
   (parseUsdToUsdcUnits_exact "0.000001".toList ['0'] ['0', '0', '0', '0', '0', '1']
      ⟨by decide, by decide, by decide, Or.inr ⟨by decide, by decide⟩⟩ (by decide)
      (amountValue_pos _ _ (by decide))).1,
   (parseUsdToUsdcUnits_exact "10".toList ['1', '0'] []
      ⟨by decide, by decide, by decide, Or.inl ⟨rfl, by decide⟩⟩ (by decide)
      (amountValue_pos _ _ (by decide))).1⟩

theorem amountValue_eq_zero_iff (whole frac : List Char) (hlen : frac.length ≤ 6) :
    amountValue whole frac = 0
      ↔ decimalValue whole * 10 ^ 6 + decimalValue (fracPadded6 frac) = 0 := by
  have hmul := amountValue_mul whole frac hlen
  constructor
  · intro h
    rw [h, zero_mul] at hmul
    exact_mod_cast hmul
  · intro h
    rw [h] at hmul
    have h10 : (10 : ℚ) ^ 6 ≠ 0 := by positivity
    have := hmul.symm
    simpa [h10] using this

/-- C2 as stated fails: `".5"` has only digits and one point, one fractional
digit and a non-zero value, yet it is rejected; `" 5"` contains a space, yet
it is accepted. -/
theorem parseUsdToUsdcUnits_claimed_failure_counterexample :
    (claimedParseFailure ".5".toList = false
        ∧ parseUsdToUsdcUnits ".5".toList = .error (newError "Amount must be a number."))
      ∧ (claimedParseFailure " 5".toList = true
        ∧ parseUsdToUsdcUnits " 5".toList = .ok 5000000) := by
  decide

/-- C2, amended. `parseUsdToUsdcUnits` fails exactly when the text, with
surrounding whitespace trimmed, is empty, is not `digits` or `digits.digits`
(one digit at least on each side of the point), has more than 6 fractional
digits, or denotes zero; the zero case is the one reported as
"Amount must be greater than 0."; every returned amount is positive; and
`""`, `"abc"`, `"1.2345678"` and `"0"` fail. -/
theorem parseUsdToUsdcUnits_fails_iff (text : List Char) :
    ((∃ e, parseUsdToUsdcUnits text = .error e) ↔
        (trim text = [] ∨ (¬ ∃ whole frac, IsDecimalText (trim text) whole frac)
          ∨ (∃ whole frac, IsDecimalText (trim text) whole frac ∧ 6 < frac.length)
          ∨ (∃ whole frac, IsDecimalText (trim text) whole frac ∧ amountValue whole frac = 0)))
      ∧ (parseUsdToUsdcUnits text = .error (newError "Amount must be greater than 0.") ↔
          ∃ whole frac, IsDecimalText (trim text) whole frac ∧ frac.length ≤ 6
            ∧ amountValue whole frac = 0)
      ∧ (∀ u, parseUsdToUsdcUnits text = .ok u → 0 < u)
      ∧ (∃ e, parseUsdToUsdcUnits "".toList = .error e)
      ∧ (∃ e, parseUsdToUsdcUnits "abc".toList = .error e)
      ∧ (∃ e, parseUsdToUsdcUnits "1.2345678".toList = .error e)
      ∧ parseUsdToUsdcUnits "0".toList = .error (newError "Amount must be greater than 0.") := by
  refine ⟨?_, ?_, ?_, ⟨newError "Enter an amount.", by decide⟩, ⟨newError "Amount must be a number.", by decide⟩,
    ⟨newError "USDC supports up to 6 decimal places.", by decide⟩, by decide⟩
  · constructor
    · rintro ⟨e, he⟩
      by_cases hempty : trim text = []
      · exact Or.inl hempty
      by_cases hshape : ∃ whole frac, IsDecimalText (trim text) whole frac
      · obtain ⟨whole, frac, hwf⟩ := hshape
        by_cases hlen : 6 < frac.length
        · exact Or.inr (Or.inr (Or.inl ⟨whole, frac, hwf, hlen⟩))
        · refine Or.inr (Or.inr (Or.inr ⟨whole, frac, hwf, ?_⟩))
          rw [amountValue_eq_zero_iff _ _ (by omega)]
          by_contra hnz
          rw [parse_of_text text whole frac hwf, if_neg hlen, if_neg hnz] at he
          cases he
      · exact Or.inr (Or.inl hshape)
    · rintro (h | h | ⟨whole, frac, hwf, hlen⟩ | ⟨whole, frac, hwf, hz⟩)
      · exact ⟨_, parse_of_empty text h⟩
      · by_cases hempty : trim text = []
        · exact ⟨_, parse_of_empty text hempty⟩
        · exact ⟨_, parse_of_not_text text hempty h⟩
      · exact ⟨_, by rw [parse_of_text text whole frac hwf, if_pos hlen]⟩
      · by_cases hlen : 6 < frac.length
        · exact ⟨_, by rw [parse_of_text text whole frac hwf, if_pos hlen]⟩
        · rw [amountValue_eq_zero_iff _ _ (by omega)] at hz
          exact ⟨_, by rw [parse_of_text text whole frac hwf, if_neg hlen, if_pos hz]⟩
  · constructor
    · intro he
      by_cases hempty : trim text = []
      · rw [parse_of_empty text hempty] at he
        exact absurd he (by decide)
      by_cases hshape : ∃ whole frac, IsDecimalText (trim text) whole frac
      · obtain ⟨whole, frac, hwf⟩ := hshape
        by_cases hlen : 6 < frac.length
        · rw [parse_of_text text whole frac hwf, if_pos hlen] at he
          exact absurd he (by decide)
        · refine ⟨whole, frac, hwf, by omega, ?_⟩
          rw [amountValue_eq_zero_iff _ _ (by omega)]
          by_contra hnz
          rw [parse_of_text text whole frac hwf, if_neg hlen, if_neg hnz] at he
          cases he
      · rw [parse_of_not_text text hempty hshape] at he
        exact absurd he (by decide)
    · rintro ⟨whole, frac, hwf, hlen, hz⟩
      rw [amountValue_eq_zero_iff _ _ hlen] at hz
      rw [parse_of_text text whole frac hwf, if_neg (by omega), if_pos hz]
  · intro u hu
    by_cases hempty : trim text = []
    · rw [parse_of_empty text hempty] at hu
      cases hu
    by_cases hshape : ∃ whole frac, IsDecimalText (trim text) whole frac
    · obtain ⟨whole, frac, hwf⟩ := hshape
      rw [parse_of_text text whole frac hwf] at hu
      by_cases h1 : 6 < frac.length
      · rw [if_pos h1] at hu
        cases hu
      · by_cases h2 : decimalValue whole * 10 ^ 6 + decimalValue (fracPadded6 frac) = 0
        · rw [if_neg h1, if_pos h2] at hu
          cases hu
        · rw [if_neg h1, if_neg h2] at hu
          cases hu
          exact Nat.pos_of_ne_zero h2
    · rw [parse_of_not_text text hempty hshape] at hu
      cases hu

/-- Witness of C2: `"3.5"` is accepted and its amount is positive, and the
zero amount `"0.00"` is the failure reported as not greater than 0. -/
theorem parseUsdToUsdcUnits_fails_iff_witness :
    0 < 3500000
      ∧ parseUsdToUsdcUnits "0.00".toList = .error (newError "Amount must be greater than 0.") :=
  ⟨(parseUsdToUsdcUnits_fails_iff "3.5".toList).2.2.1 3500000 (by decide),
   (parseUsdToUsdcUnits_fails_iff "0.00".toList).2.1.mpr
      ⟨['0'], ['0', '0'],
        ⟨by decide, by decide, by decide, Or.inr ⟨by decide, by decide⟩⟩, by decide,
        (amountValue_eq_zero_iff _ _ (by decide)).mpr (by decide)⟩⟩

/-! ## Recipient validation -/

theorem isHexChar_iff (c : Char) :
    isHexChar c = true ↔ c ∈ "0123456789abcdefABCDEF".toList := by
  constructor
  · intro h
    have hc : c = Char.ofNat c.toNat := (Char.ofNat_toNat c).symm
    simp only [isHexChar, isDigit, Bool.or_eq_true, Bool.and_eq_true, decide_eq_true_eq] at h
    rw [hc]
    generalize c.toNat = n at h
    rcases h with (⟨h1, h2⟩ | ⟨h1, h2⟩) | ⟨h1, h2⟩ <;> interval_cases n <;> decide
  · revert c
    decide

theorem isAddressLike_iff (s : List Char) : isAddressLike s = true ↔ HasAddressShape s := by
  constructor
  · intro h
    unfold isAddressLike at h
    split at h
    · rename_i body
      simp only [Bool.and_eq_true, decide_eq_true_eq, List.all_eq_true] at h
      exact ⟨body, rfl, h.1, fun c hc => (isHexChar_iff c).mp (h.2 c hc)⟩
    · cases h
  · rintro ⟨body, rfl, hlen, hall⟩
    simp only [isAddressLike, Bool.and_eq_true, decide_eq_true_eq, List.all_eq_true]
    exact ⟨hlen, fun c hc => (isHexChar_iff c).mpr (hall c hc)⟩

theorem zeroAddress_eq : zeroAddress = '0' :: 'x' :: List.replicate 40 '0' := by decide

theorem zeroAddress_shape : isAddressLike zeroAddress = true := by decide

/-- An accepted recipient has the address shape. -/
theorem shape_of_validated (s r : List Char) (h : validateRecipientOrThrow s = .ok r) :
    HasAddressShape s := by
  rw [← isAddressLike_iff]
  cases hs : isAddressLike s with
  | true => rfl
  | false =>
    rw [validateRecipientOrThrow, hs] at h
    cases h

/-- C3. `validateRecipientOrThrow s` returns `s` itself exactly when `s` is
`0x` followed by 40 hexadecimal characters of either case and is not the
all-zero address; it fails with the malformed-address error exactly when `s`
lacks that shape, and with the zero-address error exactly when `s` is `0x`
followed by 40 zeros. -/
theorem validateRecipientOrThrow_spec (s : List Char) :
    (validateRecipientOrThrow s = .ok s
        ↔ (HasAddressShape s ∧ s ≠ '0' :: 'x' :: List.replicate 40 '0'))
      ∧ (∀ r, validateRecipientOrThrow s = .ok r → r = s)
      ∧ (validateRecipientOrThrow s
          = .error (newError "Recipient address is not a valid 20-byte hex address.")
        ↔ ¬ HasAddressShape s)
      ∧ (validateRecipientOrThrow s = .error (newError "Recipient cannot be zero address.")
        ↔ s = '0' :: 'x' :: List.replicate 40 '0') := by
  rw [← zeroAddress_eq, ← isAddressLike_iff]
  unfold validateRecipientOrThrow
  by_cases hshape : isAddressLike s = true
  · by_cases hz : s = zeroAddress
    · subst hz
      simp only [zeroAddress_shape, Bool.not_true, Bool.false_eq_true, if_false, if_true]
      refine ⟨by simp, fun r hr => (by cases hr), by decide, by simp⟩
    · simp only [hshape, hz, Bool.not_true, Bool.false_eq_true, if_false]
      refine ⟨by simp [hz], fun r hr => (by cases hr; rfl), by simp, by simp [hz]⟩
  · have hf : isAddressLike s = false := by simpa using hshape
    have hz : s ≠ zeroAddress := by
      rintro rfl
      rw [zeroAddress_shape] at hf
      cases hf
    simp only [hf, Bool.not_false, if_true]
    refine ⟨by simp, fun r hr => (by cases hr), by simp, ?_⟩
    constructor
    · intro h
      exact absurd h (by decide)
    · intro h
      exact absurd h hz

/-- Witness of C3: the configured recipient, of mixed letter case, is
returned unchanged, and the all-zero address gets the zero-address error. -/
theorem validateRecipientOrThrow_spec_witness :
    validateRecipientOrThrow RECIPIENT = .ok RECIPIENT
      ∧ validateRecipientOrThrow zeroAddress
        = .error (newError "Recipient cannot be zero address.") :=
  ⟨(validateRecipientOrThrow_spec RECIPIENT).1.mpr
      ⟨⟨RECIPIENT.drop 2, by decide, by decide, by decide⟩, by decide⟩,
   (validateRecipientOrThrow_spec zeroAddress).2.2.2.mpr (by decide)⟩

/-! ## Call encoding -/

theorem hexDigitValue_hexDigitChar (d : Nat) (h : d < 16) :
    hexDigitValue (hexDigitChar d) = d := by
  interval_cases d <;> decide

theorem hexDigitChar_mem (d : Nat) (h : d < 16) :
    hexDigitChar d ∈ "0123456789abcdef".toList := by
  interval_cases d <;> decide

theorem toString16Core_value (fuel n : Nat) (acc : List Char) (h : n < fuel) :
    hexValue (toString16Core fuel n acc) = n * 16 ^ acc.length + hexValue acc := by
  induction fuel generalizing n acc with
  | zero => omega
  | succ fuel ih =>
    have hd := hexDigitValue_hexDigitChar (n % 16) (Nat.mod_lt _ (by norm_num))
    have hn := Nat.div_add_mod n 16
    unfold toString16Core
    by_cases h0 : n / 16 = 0
    · simp only [h0, if_true, hexValue, hd]
      have : n % 16 = n := by omega
      rw [this]
    · have hlt : n / 16 < fuel := by omega
      simp only [h0, if_false]
      rw [ih (n / 16) _ hlt, hexValue, hd, List.length_cons, pow_succ]
      nth_rewrite 3 [← hn]
      ring

theorem toString16Core_length (fuel n k : Nat) (acc : List Char) (h : n < fuel)
    (hk : n < 16 ^ (k + 1)) :
    (toString16Core fuel n acc).length ≤ k + 1 + acc.length := by
  induction fuel generalizing n acc k with
  | zero => omega
  | succ fuel ih =>
    unfold toString16Core
    by_cases h0 : n / 16 = 0
    · simp only [h0, if_true, List.length_cons]
      omega
    · simp only [h0, if_false]
      have hlt : n / 16 < fuel := by omega
      cases k with
      | zero =>
        exfalso
        have : n < 16 := by simpa using hk
        omega
      | succ k =>
        have hk1 : n / 16 < 16 ^ (k + 1) := by
          rw [Nat.div_lt_iff_lt_mul (by norm_num)]
          rw [pow_succ] at hk
          exact hk
        have := ih (n / 16) k (hexDigitChar (n % 16) :: acc) hlt hk1
        simp only [List.length_cons] at this
        omega

theorem toString16Core_mem (fuel n : Nat) (acc : List Char)
    (hacc : ∀ c ∈ acc, c ∈ "0123456789abcdef".toList) :
    ∀ c ∈ toString16Core fuel n acc, c ∈ "0123456789abcdef".toList := by
  induction fuel generalizing n acc with
  | zero => exact hacc
  | succ fuel ih =>
    have hd := hexDigitChar_mem (n % 16) (Nat.mod_lt _ (by norm_num))
    have hacc1 : ∀ c ∈ hexDigitChar (n % 16) :: acc, c ∈ "0123456789abcdef".toList := by
      intro c hc
      rcases List.mem_cons.mp hc with rfl | hc
      · exact hd
      · exact hacc c hc
    unfold toString16Core
    by_cases h0 : n / 16 = 0
    · simp only [h0, if_true]
      exact hacc1
    · simp only [h0, if_false]
      exact ih _ _ hacc1

theorem hexValue_toString16 (n : Nat) : hexValue (toString16 n) = n := by
  simp [toString16, toString16Core_value n.succ n [] (Nat.lt_succ_self n), hexValue]

theorem toString16_length (n : Nat) (h : n < 2 ^ 256) : (toString16 n).length ≤ 64 := by
  have := toString16Core_length (n + 1) n 63 [] (Nat.lt_succ_self n) (by
    calc n < 2 ^ 256 := h
      _ = 16 ^ (63 + 1) := by norm_num)
  simpa [toString16] using this

theorem hexValue_append (s t : List Char) :
    hexValue (s ++ t) = hexValue s * 16 ^ t.length + hexValue t := by
  induction s with
  | nil => simp [hexValue]
  | cons c cs ih =>
    rw [List.cons_append, hexValue, hexValue, ih, List.length_append]
    ring

theorem hexValue_zeros (k : Nat) : hexValue (List.replicate k '0') = 0 := by
  induction k with
  | zero => rfl
  | succ k ih =>
    rw [List.replicate_succ, hexValue, ih]
    have : hexDigitValue '0' = 0 := by decide
    simp [this]

theorem toLower_hex_mem :
    ∀ c ∈ "0123456789abcdefABCDEF".toList, c.toLower ∈ "0123456789abcdef".toList := by
  decide

theorem strip0x_of_shape (body : List Char) : strip0x ('0' :: 'x' :: body) = body := by
  simp [strip0x, startsWith]

theorem pad32_length (s : List Char) (h : s.length ≤ 64) : (pad32 s).length = 64 := by
  simp [pad32, padStart]
  omega

theorem hexValue_pad32 (s : List Char) : hexValue (pad32 s) = hexValue s := by
  simp [pad32, padStart, hexValue_append, hexValue_zeros]

/-- The payload as the concatenation of its four fields. -/
theorem encode_eq (body : List Char) (a : Nat) (hlen : body.length = 40) :
    encodeErc20TransferData ('0' :: 'x' :: body) a
      = "0xa9059cbb".toList ++ (List.replicate 24 '0' ++ (body.map Char.toLower
          ++ pad32 (toString16 a))) := by
  have hpad : pad32 (toLowerCase body) = List.replicate 24 '0' ++ body.map Char.toLower := by
    simp [pad32, padStart, toLowerCase, hlen]
  unfold encodeErc20TransferData
  rw [strip0x_of_shape, hpad]
  simp

/-- C4. For an accepted recipient and an amount below `2^256` the payload is
`0x`, the selector `a9059cbb`, 24 zeros, the recipient's 40 hex digits in
lower case, and 64 lower-case hex digits that denote the amount, read
big-endian. -/
theorem encodeErc20TransferData_layout (recipient : List Char) (a : Nat)
    (hrec : validateRecipientOrThrow recipient = .ok recipient) (ha : a < 2 ^ 256) :
    (encodeErc20TransferData recipient a).take 2 = "0x".toList
      ∧ ((encodeErc20TransferData recipient a).drop 2).take 8 = "a9059cbb".toList
      ∧ ((encodeErc20TransferData recipient a).drop 10).take 24 = List.replicate 24 '0'
      ∧ ((encodeErc20TransferData recipient a).drop 34).take 40
          = (recipient.drop 2).map Char.toLower
      ∧ (∀ c ∈ (recipient.drop 2).map Char.toLower, c ∈ "0123456789abcdef".toList)
      ∧ (encodeErc20TransferData recipient a).length = 138
      ∧ ((encodeErc20TransferData recipient a).drop 74).length = 64
      ∧ (∀ c ∈ (encodeErc20TransferData recipient a).drop 74, c ∈ "0123456789abcdef".toList)
      ∧ hexValue ((encodeErc20TransferData recipient a).drop 74) = a := by
  obtain ⟨body, rfl, hlen, hall⟩ := shape_of_validated recipient recipient hrec
  have hamt : (pad32 (toString16 a)).length = 64 := pad32_length _ (toString16_length a ha)
  have hlow : (body.map Char.toLower).length = 40 := by simp [hlen]
  have hdrop : (encodeErc20TransferData ('0' :: 'x' :: body) a).drop 74
      = pad32 (toString16 a) := by
    rw [encode_eq body a hlen]
    rw [List.drop_append_eq_append_drop, List.drop_append_eq_append_drop,
      List.drop_append_eq_append_drop]
    simp [hlen]
  have hmem : ∀ c ∈ pad32 (toString16 a), c ∈ "0123456789abcdef".toList := by
    intro c hc
    simp only [pad32, padStart, List.mem_append] at hc
    rcases hc with hc | hc
    · rw [List.eq_of_mem_replicate hc]
      decide
    · exact toString16Core_mem _ _ [] (fun _ h => absurd h (List.not_mem_nil _)) c hc
  refine ⟨?_, ?_, ?_, ?_, ?_, ?_, ?_, ?_, ?_⟩
  · rw [encode_eq body a hlen]; rfl
  · rw [encode_eq body a hlen]; rfl
  · rw [encode_eq body a hlen]
    show List.take 24 (List.replicate 24 '0' ++ _) = _
    rw [List.take_left' (by simp)]
  · rw [encode_eq body a hlen]
    show List.take 40 (List.drop 24 (List.replicate 24 '0' ++ _)) = _
    rw [List.drop_left' (by simp), List.take_left' hlow]
    rfl
  · intro c hc
    simp only [List.drop_succ_cons, List.drop_zero, List.mem_map] at hc
    obtain ⟨d, hd, rfl⟩ := hc
    exact toLower_hex_mem d (hall d hd)
  · rw [encode_eq body a hlen]
    simp [hamt, hlen]
  · rw [hdrop, hamt]
  · rw [hdrop]; exact hmem
  · rw [hdrop, hexValue_pad32, hexValue_toString16]

/-- Witness of C4: the configured recipient and the amount parsed from `"5"`,
whose last 64 hex digits denote `5 * 10^6`. -/
theorem encodeErc20TransferData_layout_witness :
    parseUsdToUsdcUnits "5".toList = .ok 5000000
      ∧ hexValue ((encodeErc20TransferData RECIPIENT 5000000).drop 74) = 5 * 10 ^ 6 :=
  ⟨by decide,
   (encodeErc20TransferData_layout RECIPIENT 5000000 (by decide) (by norm_num)).2.2.2.2.2.2.2.2⟩

set_option maxRecDepth 100000 in
/-- C5 at the failing input. The amount text `2` followed by 71 zeros is
accepted by `parseUsdToUsdcUnits`, the amount is `2 * 10^77`, above `2^256`,
and the payload built for it has 137 hex digits after `0x`, not 136. -/
theorem encodeErc20TransferData_oversized :
    validateRecipientOrThrow RECIPIENT = .ok RECIPIENT
      ∧ parseUsdToUsdcUnits ('2' :: List.replicate 71 '0') = .ok (2 * 10 ^ 77)
      ∧ 2 ^ 256 ≤ 2 * 10 ^ 77
      ∧ (encodeErc20TransferData RECIPIENT (2 * 10 ^ 77)).length = 2 + 137 := by
  refine ⟨by decide, by decide, by norm_num, by decide⟩

/-! ## The `sendTip` run -/

theorem sendTip_disabled (cfg : Config) (host : Host) (amountUsd : List Char) (w : World)
    (h : canSendTips cfg = false) :
    sendTip cfg host amountUsd w = (.ok none, { w with trace := w.trace ++
      [Event.toast "Set a real <b>BUILDER_CODE</b> + <b>RECIPIENT</b> to enable tipping.".toList
        "warn".toList] }) := by
  simp [sendTip, h, bind, Run.bind, toast, emit, pure, Run.pure]

theorem sendTip_eq (cfg : Config) (host : Host) (amountUsd : List Char) (w : World)
    (h : canSendTips cfg = true) :
    sendTip cfg host amountUsd w =
      match prepareTip cfg host amountUsd w with
      | (.ok pp, w1) => submitTip pp.1 pp.2 amountUsd w1
      | (.error e, w1) => (.error e, w1) := by
  simp only [sendTip, prepareTip, submitTip, h, bind, Run.bind, pure, Run.pure, Run.throw,
    liftExcept, Bool.not_true, Bool.false_eq_true, if_false]
  rcases getProvider host w with ⟨_ | p, w1⟩ <;> simp only []
  rcases ensureBaseMainnet p w1 with ⟨_ | u, w2⟩ <;> simp only []
  rcases request Method.eth_requestAccounts p.eth_requestAccounts w2 with ⟨_ | a, w3⟩
    <;> simp only []
  rcases a with _ | ⟨_ | ⟨c, cs⟩, rest⟩
  · simp [Run.throw]
  · simp [Run.throw]
  · rcases validateRecipientOrThrow cfg.RECIPIENT with _ | r
    · simp [Run.bind, liftExcept]
    rcases parseUsdToUsdcUnits amountUsd with _ | u
    · simp [Run.bind, liftExcept]
    · simp [Run.bind, liftExcept, Run.pure]

theorem getProvider_eq (host : Host) (w : World) :
    getProvider host w =
      match discover host with
      | some p => (.ok p, { w with trace := w.trace ++ [Event.getEthereumProvider] })
      | none => (.error noProviderError,
          { w with trace := w.trace ++ [Event.getEthereumProvider] }) := by
  simp only [getProvider, discover, bind, Run.bind, emit, pure, Run.pure, Run.throw,
    noProviderError]
  rcases host.sdkProvider with e | (_ | p) <;> rcases host.windowEthereum with _ | q <;> rfl

/-- The ways `ensureBaseMainnet` can go, by the answers of the provider. -/
theorem ensureBaseMainnet_cases (p : Provider) :
    (∃ e, p.eth_chainId = .error e ∧ ∀ w, ensureBaseMainnet p w = (.error e,
        { w with trace := w.trace ++ [Event.request .eth_chainId (some e)] }))
    ∨ (p.eth_chainId = .ok "0x2105".toList ∧ ∀ w, ensureBaseMainnet p w = (.ok (),
        { w with trace := w.trace ++ [Event.request .eth_chainId none] }))
    ∨ (∃ c e, p.eth_chainId = .ok c ∧ c ≠ "0x2105".toList
        ∧ p.wallet_switchEthereumChain = .error e
        ∧ ∀ w, ensureBaseMainnet p w = (.error wrongNetworkError,
          { w with trace := w.trace ++ [Event.request .eth_chainId none,
            Event.request (.wallet_switchEthereumChain "0x2105".toList) (some e)] }))
    ∨ (∃ c, p.eth_chainId = .ok c ∧ c ≠ "0x2105".toList
        ∧ p.wallet_switchEthereumChain = .ok ()
        ∧ ∀ w, ensureBaseMainnet p w = (.ok (),
          { w with trace := w.trace ++ [Event.request .eth_chainId none,
            Event.request (.wallet_switchEthereumChain "0x2105".toList) none] })) := by
  rcases hc : p.eth_chainId with e | c
  · refine Or.inl ⟨e, rfl, fun w => ?_⟩
    simp only [ensureBaseMainnet, bind, Run.bind, request, hc, failureOf]
  · by_cases h : c = "0x2105".toList
    · subst h
      refine Or.inr (Or.inl ⟨rfl, fun w => ?_⟩)
      simp only [ensureBaseMainnet, bind, Run.bind, request, hc, failureOf, if_true]
      rfl
    · rcases hs : p.wallet_switchEthereumChain with e | u
      · refine Or.inr (Or.inr (Or.inl ⟨c, e, rfl, h, rfl, fun w => ?_⟩))
        simp only [ensureBaseMainnet, bind, Run.bind, request, hc, hs, failureOf, h, if_false]
        simp [Run.tryCatch, request, Run.throw, failureOf, wrongNetworkError, hs]
      · refine Or.inr (Or.inr (Or.inr ⟨c, rfl, h, rfl, fun w => ?_⟩))
        simp only [ensureBaseMainnet, bind, Run.bind, request, hc, hs, failureOf, h, if_false]
        simp [Run.tryCatch, request, Run.throw, failureOf, hs]

/-- The two ways `ensureBaseMainnet` succeeds. -/
theorem ensureBaseMainnet_ready (p : Provider) (net : List Event) (h : NetworkReady p net)
    (w : World) : ensureBaseMainnet p w = (.ok (), { w with trace := w.trace ++ net }) := by
  rcases ensureBaseMainnet_cases p
    with ⟨e, hc, _⟩ | ⟨hc, hens⟩ | ⟨c, e, hc, hne, hs, _⟩ | ⟨c, hc, hne, hs, hens⟩
  · rcases h with ⟨h1, _⟩ | ⟨c1, h1, _⟩ <;> rw [hc] at h1 <;> cases h1
  · rcases h with ⟨_, rfl⟩ | ⟨c1, h1, hne1, _⟩
    · exact hens w
    · rw [hc] at h1
      cases h1
      exact absurd rfl hne1
  · rcases h with ⟨h1, _⟩ | ⟨c1, _, _, h1, _⟩
    · rw [hc] at h1
      cases h1
      exact absurd rfl hne
    · rw [hs] at h1
      cases h1
  · rcases h with ⟨h1, _⟩ | ⟨c1, _, _, _, rfl⟩
    · rw [hc] at h1
      cases h1
      exact absurd rfl hne
    · exact hens w

/-- Every way the steps before the first `setCta` can go, by what the
environment answers, with the outcome and the effects of each. -/
theorem prepareTip_cases (cfg : Config) (host : Host) (amountUsd : List Char) :
    (discover host = none ∧ ∀ w, prepareTip cfg host amountUsd w = (.error noProviderError,
        { w with trace := w.trace ++ [Event.getEthereumProvider] }))
    ∨ ∃ p, discover host = some p ∧
      ((∃ e, p.eth_chainId = .error e ∧ ∀ w, prepareTip cfg host amountUsd w = (.error e,
          { w with trace := w.trace ++ [Event.getEthereumProvider,
            Event.request .eth_chainId (some e)] }))
      ∨ (∃ c e, p.eth_chainId = .ok c ∧ c ≠ "0x2105".toList
          ∧ p.wallet_switchEthereumChain = .error e
          ∧ ∀ w, prepareTip cfg host amountUsd w = (.error wrongNetworkError,
            { w with trace := w.trace ++ [Event.getEthereumProvider,
              Event.request .eth_chainId none,
              Event.request (.wallet_switchEthereumChain "0x2105".toList) (some e)] }))
      ∨ ∃ net, NetworkReady p net ∧
        ((∃ e, p.eth_requestAccounts = .error e
            ∧ ∀ w, prepareTip cfg host amountUsd w = (.error e,
            { w with trace := w.trace ++ (Event.getEthereumProvider :: net
              ++ [Event.request .eth_requestAccounts (some e)]) }))
        ∨ ∃ accounts, p.eth_requestAccounts = .ok accounts ∧
          ((accounts.headD [] = []
              ∧ ∀ w, prepareTip cfg host amountUsd w = (.error noAccountError,
              { w with trace := w.trace ++ (Event.getEthereumProvider :: net
                ++ [Event.request .eth_requestAccounts none]) }))
          ∨ (accounts.headD [] ≠ [] ∧ ∃ e, validateRecipientOrThrow cfg.RECIPIENT = .error e
              ∧ ∀ w, prepareTip cfg host amountUsd w = (.error e,
                { w with trace := w.trace ++ (Event.getEthereumProvider :: net
                  ++ [Event.request .eth_requestAccounts none]) }))
          ∨ (accounts.headD [] ≠ [] ∧ ∃ r e, validateRecipientOrThrow cfg.RECIPIENT = .ok r
              ∧ parseUsdToUsdcUnits amountUsd = .error e
              ∧ ∀ w, prepareTip cfg host amountUsd w = (.error e,
                { w with trace := w.trace ++ (Event.getEthereumProvider :: net
                  ++ [Event.request .eth_requestAccounts none]) }))
          ∨ (accounts.headD [] ≠ [] ∧ ∃ r u, validateRecipientOrThrow cfg.RECIPIENT = .ok r
              ∧ parseUsdToUsdcUnits amountUsd = .ok u
              ∧ ∀ w, prepareTip cfg host amountUsd w
                = (.ok (p, tipPayload cfg host (accounts.headD []) (encodeErc20TransferData r u)),
                { w with trace := w.trace ++ (Event.getEthereumProvider :: net
                  ++ [Event.request .eth_requestAccounts none]) }))))) := by
  rcases hd : discover host with _ | p
  · refine Or.inl ⟨rfl, fun w => ?_⟩
    simp only [prepareTip, bind, Run.bind, getProvider_eq, hd]
  refine Or.inr ⟨p, rfl, ?_⟩
  have hready : (∃ net, NetworkReady p net) → ∃ net, NetworkReady p net ∧
      ((∃ e, p.eth_requestAccounts = .error e
          ∧ ∀ w, prepareTip cfg host amountUsd w = (.error e,
          { w with trace := w.trace ++ (Event.getEthereumProvider :: net
            ++ [Event.request .eth_requestAccounts (some e)]) }))
      ∨ ∃ accounts, p.eth_requestAccounts = .ok accounts ∧
        ((accounts.headD [] = []
            ∧ ∀ w, prepareTip cfg host amountUsd w = (.error noAccountError,
            { w with trace := w.trace ++ (Event.getEthereumProvider :: net
              ++ [Event.request .eth_requestAccounts none]) }))
        ∨ (accounts.headD [] ≠ [] ∧ ∃ e, validateRecipientOrThrow cfg.RECIPIENT = .error e
            ∧ ∀ w, prepareTip cfg host amountUsd w = (.error e,
              { w with trace := w.trace ++ (Event.getEthereumProvider :: net
                ++ [Event.request .eth_requestAccounts none]) }))
        ∨ (accounts.headD [] ≠ [] ∧ ∃ r e, validateRecipientOrThrow cfg.RECIPIENT = .ok r
            ∧ parseUsdToUsdcUnits amountUsd = .error e
            ∧ ∀ w, prepareTip cfg host amountUsd w = (.error e,
              { w with trace := w.trace ++ (Event.getEthereumProvider :: net
                ++ [Event.request .eth_requestAccounts none]) }))
        ∨ (accounts.headD [] ≠ [] ∧ ∃ r u, validateRecipientOrThrow cfg.RECIPIENT = .ok r
            ∧ parseUsdToUsdcUnits amountUsd = .ok u
            ∧ ∀ w, prepareTip cfg host amountUsd w
              = (.ok (p, tipPayload cfg host (accounts.headD []) (encodeErc20TransferData r u)),
              { w with trace := w.trace ++ (Event.getEthereumProvider :: net
                ++ [Event.request .eth_requestAccounts none]) })))) := by
    rintro ⟨net, hnet⟩
    refine ⟨net, hnet, ?_⟩
    have hens := ensureBaseMainnet_ready p net hnet
    rcases ha : p.eth_requestAccounts with e | accounts
    · refine Or.inl ⟨e, rfl, fun w => ?_⟩
      simp only [prepareTip, bind, Run.bind, getProvider_eq, hd, hens, request, ha]
      simp [failureOf]
    refine Or.inr ⟨accounts, rfl, ?_⟩
    rcases accounts with _ | ⟨_ | ⟨c, cs⟩, rest⟩
    · refine Or.inl ⟨rfl, fun w => ?_⟩
      simp only [prepareTip, bind, Run.bind, getProvider_eq, hd, hens, request, ha]
      simp [failureOf, noAccountError, Run.throw]
    · refine Or.inl ⟨rfl, fun w => ?_⟩
      simp only [prepareTip, bind, Run.bind, getProvider_eq, hd, hens, request, ha]
      simp [failureOf, noAccountError, Run.throw]
    · have hne : List.headD ((c :: cs) :: rest) [] ≠ [] := by simp
      rcases hv : validateRecipientOrThrow cfg.RECIPIENT with e | r
      · refine Or.inr (Or.inl ⟨hne, e, rfl, fun w => ?_⟩)
        simp only [prepareTip, bind, Run.bind, getProvider_eq, hd, hens, request, ha, hv]
        simp [failureOf, Run.bind, liftExcept]
      rcases hp : parseUsdToUsdcUnits amountUsd with e | u
      · refine Or.inr (Or.inr (Or.inl ⟨hne, r, e, rfl, rfl, fun w => ?_⟩))
        simp only [prepareTip, bind, Run.bind, getProvider_eq, hd, hens, request, ha, hv, hp]
        simp [failureOf, Run.bind, liftExcept]
      · refine Or.inr (Or.inr (Or.inr ⟨hne, r, u, rfl, rfl, fun w => ?_⟩))
        simp only [prepareTip, bind, Run.bind, getProvider_eq, hd, hens, request, ha, hv, hp]
        simp [failureOf, Run.bind, liftExcept, pure, Run.pure, tipPayload]
  rcases ensureBaseMainnet_cases p
    with ⟨e, hc, hens⟩ | ⟨hc, hens⟩ | ⟨c, e, hc, hne, hs, hens⟩ | ⟨c, hc, hne, hs, hens⟩
  · refine Or.inl ⟨e, hc, fun w => ?_⟩
    simp only [prepareTip, bind, Run.bind, getProvider_eq, hd, hens]
    simp
  · exact Or.inr (Or.inr (hready ⟨_, Or.inl ⟨hc, rfl⟩⟩))
  · refine Or.inr (Or.inl ⟨c, e, hc, hne, hs, fun w => ?_⟩)
    simp only [prepareTip, bind, Run.bind, getProvider_eq, hd, hens]
    simp
  · exact Or.inr (Or.inr (hready ⟨_, Or.inr ⟨c, hc, hne, hs, rfl⟩⟩))

/-- Every way the steps from the first `setCta` on can go, by the answer to
`wallet_sendCalls`. -/
theorem submitTip_cases (p : Provider) (payload : Payload) (amountUsd : List Char) :
    (∃ result, p.wallet_sendCalls payload = .ok result
      ∧ ∀ w, submitTip p payload amountUsd w = (.ok (some result),
        { tip := { w.tip with cta := "Send again".toList, busy := false },
          trace := w.trace ++ (openingEvents ++
            [Event.request (.wallet_sendCalls payload) none,
             Event.setCta "Sending…".toList true, Event.sleep 800,
             Event.setCta "Send again".toList false,
             Event.toast ("Tip sent: <b>$".toList ++ amountUsd ++ "</b> USDC".toList)
               "ok".toList]) }))
    ∨ (∃ e, p.wallet_sendCalls payload = .error e
      ∧ (e.code = some 4001 ∨ matchesRejected (errorText e) = true)
      ∧ ∀ w, submitTip p payload amountUsd w = (.ok none,
        { tip := { w.tip with cta := "Send USDC".toList, busy := false },
          trace := w.trace ++ (openingEvents ++
            [Event.request (.wallet_sendCalls payload) (some e),
             Event.setCta "Send USDC".toList false,
             Event.toast "Tip cancelled (user rejected).".toList "warn".toList]) }))
    ∨ (∃ e, p.wallet_sendCalls payload = .error e
      ∧ e.code ≠ some 4001 ∧ matchesRejected (errorText e) = false
      ∧ ∀ w, submitTip p payload amountUsd w = (.error e,
        { tip := { w.tip with cta := "Send USDC".toList, busy := false },
          trace := w.trace ++ (openingEvents ++
            [Event.request (.wallet_sendCalls payload) (some e),
             Event.setCta "Send USDC".toList false]) })) := by
  rcases hs : p.wallet_sendCalls payload with e | result
  · by_cases hrej : e.code = some 4001 ∨ matchesRejected (errorText e) = true
    · refine Or.inr (Or.inl ⟨e, rfl, hrej, fun w => ?_⟩)
      have hb : (decide (e.code = some 4001) || matchesRejected (errorText e)) = true := by
        simpa using hrej
      simp only [submitTip, bind, Run.bind, setCta, sleep, emit, toast, request, pure,
        Run.pure, Run.throw, Run.tryCatch, openingEvents, hs, failureOf, hb, if_true]
      simp [Run.bind, setCta, toast, emit, Run.pure]
    · have hb : (decide (e.code = some 4001) || matchesRejected (errorText e)) = false := by
        simpa using hrej
      have h1 : e.code ≠ some 4001 := fun h => hrej (Or.inl h)
      have h2 : matchesRejected (errorText e) = false := by
        cases hm : matchesRejected (errorText e) with
        | false => rfl
        | true => exact absurd (Or.inr hm) hrej
      refine Or.inr (Or.inr ⟨e, rfl, h1, h2, fun w => ?_⟩)
      simp only [submitTip, bind, Run.bind, setCta, sleep, emit, toast, request, pure,
        Run.pure, Run.throw, Run.tryCatch, openingEvents, hs, failureOf, hb, if_false,
        Bool.false_eq_true]
      simp [Run.bind, setCta, Run.throw]
  · refine Or.inl ⟨result, rfl, fun w => ?_⟩
    simp only [submitTip, bind, Run.bind, setCta, sleep, emit, toast, request, pure,
      Run.pure, Run.throw, Run.tryCatch, openingEvents, hs, failureOf]
    simp

/-- The steps before the first `setCta` leave the tip state alone and add
only prelude effects. -/
theorem prepareTip_frame (cfg : Config) (host : Host) (amountUsd : List Char) (w : World) :
    ∃ pre, (prepareTip cfg host amountUsd w).2 = { w with trace := w.trace ++ pre }
      ∧ ∀ ev ∈ pre, isPreludeEvent ev = true := by
  have hnet : ∀ p net, NetworkReady p net → ∀ ev ∈ net, isPreludeEvent ev = true := by
    intro p net h ev hev
    rcases h with ⟨_, rfl⟩ | ⟨c, _, _, _, rfl⟩ <;> simp at hev <;>
      rcases hev with rfl | rfl <;> rfl
  rcases prepareTip_cases cfg host amountUsd with ⟨_, h⟩ | ⟨p, _, h⟩
  · exact ⟨_, by rw [h], by simp [isPreludeEvent]⟩
  rcases h with ⟨e, _, h⟩ | ⟨c, e, _, _, _, h⟩ | ⟨net, hn, h⟩
  · exact ⟨_, by rw [h], by simp [isPreludeEvent]⟩
  · exact ⟨_, by rw [h], by simp [isPreludeEvent]⟩
  have hpre : ∀ f, ∀ ev ∈ Event.getEthereumProvider :: net
      ++ [Event.request .eth_requestAccounts f], isPreludeEvent ev = true := by
    intro f ev hev
    simp only [List.cons_append, List.mem_cons, List.mem_append, List.mem_singleton,
      List.not_mem_nil, or_false] at hev
    rcases hev with rfl | hev | rfl
    · rfl
    · exact hnet p net hn ev hev
    · rfl
  rcases h with ⟨e, _, h⟩ | ⟨accounts, _, h⟩
  · exact ⟨_, by rw [h], hpre _⟩
  rcases h with ⟨_, h⟩ | ⟨_, e, _, h⟩ | ⟨_, r, e, _, _, h⟩ | ⟨_, r, u, _, _, h⟩
  all_goals exact ⟨_, by rw [h], hpre _⟩

theorem startsWith_append (p b : List Char) : startsWith (p ++ b) p = true := by
  induction p with
  | nil => cases b <;> rfl
  | cons c cs ih => simp [startsWith, ih]

theorem includes_of_contains (s p : List Char) (h : Contains s p) : includes s p = true := by
  obtain ⟨pre, post, rfl⟩ := h
  induction pre with
  | nil =>
    cases hp : p ++ post with
    | nil =>
      have : p = [] := (List.append_eq_nil.mp hp).1
      subst this
      simp [includes, hp]
    | cons c cs =>
      simp only [List.nil_append, hp, includes, Bool.or_eq_true]
      exact Or.inl (hp ▸ startsWith_append p post)
  | cons c cs ih =>
    simp only [List.cons_append, includes, Bool.or_eq_true]
    exact Or.inr (by simpa using ih)

theorem contains_of_startsWith (s p : List Char) (h : startsWith s p = true) :
    ∃ post, s = p ++ post := by
  induction p generalizing s with
  | nil => exact ⟨s, rfl⟩
  | cons c cs ih =>
    cases s with
    | nil => simp [startsWith] at h
    | cons d ds =>
      simp only [startsWith, Bool.and_eq_true, decide_eq_true_eq] at h
      obtain ⟨post, hpost⟩ := ih ds h.2
      exact ⟨post, by rw [h.1, hpost]; rfl⟩

theorem contains_of_includes (s p : List Char) (h : includes s p = true) : Contains s p := by
  induction s with
  | nil =>
    simp only [includes, List.isEmpty_iff] at h
    exact ⟨[], [], by simp [h]⟩
  | cons c cs ih =>
    simp only [includes, Bool.or_eq_true] at h
    rcases h with h | h
    · obtain ⟨post, hpost⟩ := contains_of_startsWith _ _ h
      exact ⟨[], post, by simpa using hpost⟩
    · obtain ⟨pre, post, hpp⟩ := ih h
      exact ⟨c :: pre, post, by simp [hpp]⟩

theorem matchesRejected_of_message (e : JsError) (h : MatchesRejectedIgnoringCase e.message) :
    matchesRejected (errorText e) = true := by
  obtain ⟨pre, mid, post, hmsg, hmid⟩ := h
  have hne : e.message.isEmpty = false := by
    rw [hmsg]
    cases mid with
    | nil => simp at hmid
    | cons c cs => cases pre <;> rfl
  have htext : errorText e = e.message := by simp [errorText, hne]
  have hinc : includes (e.message.map Char.toLower) "rejected".toList = true := by
    apply includes_of_contains
    exact ⟨pre.map Char.toLower, post.map Char.toLower, by rw [hmsg]; simp [hmid]⟩
  simp only [matchesRejected, htext, hinc, Bool.or_true]

/-- A run of `sendTip` with sending enabled: the prelude leaves the tip state
alone and fails, or it succeeds and the submission runs after it. -/
theorem runSendTip_enabled (cfg : Config) (host : Host) (amountUsd : List Char)
    (tip : TipState) (hcan : canSendTips cfg = true) :
    ∃ pre, (∀ ev ∈ pre, isPreludeEvent ev = true) ∧
      ((∃ e, prepareTip cfg host amountUsd { tip := tip, trace := [] }
            = (.error e, { tip := tip, trace := pre })
          ∧ runSendTip cfg host amountUsd tip = (.error e, { tip := tip, trace := pre }))
      ∨ (∃ p payload, prepareTip cfg host amountUsd { tip := tip, trace := [] }
            = (.ok (p, payload), { tip := tip, trace := pre })
          ∧ runSendTip cfg host amountUsd tip
            = submitTip p payload amountUsd { tip := tip, trace := pre })) := by
  obtain ⟨pre, hw, hpre⟩ := prepareTip_frame cfg host amountUsd { tip := tip, trace := [] }
  refine ⟨pre, hpre, ?_⟩
  have heq := sendTip_eq cfg host amountUsd { tip := tip, trace := [] } hcan
  rcases hprep : prepareTip cfg host amountUsd { tip := tip, trace := [] } with ⟨res, w1⟩
  rw [hprep] at hw heq
  simp only [List.nil_append] at hw
  subst hw
  rcases res with e | ⟨p, payload⟩
  · exact Or.inl ⟨e, rfl, heq⟩
  · exact Or.inr ⟨p, payload, rfl, heq⟩

theorem runSendTip_disabled (cfg : Config) (host : Host) (amountUsd : List Char)
    (tip : TipState) (h : canSendTips cfg = false) :
    runSendTip cfg host amountUsd tip = (.ok none, { tip := tip, trace :=
      [Event.toast "Set a real <b>BUILDER_CODE</b> + <b>RECIPIENT</b> to enable tipping.".toList
        "warn".toList] }) := by
  rw [runSendTip, sendTip_disabled _ _ _ _ h]
  rfl

/-- C6. When the `wallet_sendCalls` request of a run fails with an error
whose code is 4001, or whose message matches `rejected` case-insensitively,
`sendTip` resolves without a result (it does not reject) and leaves the
call-to-action at "Send USDC" with `busy = false`. -/
theorem sendTip_rejection_is_cancelled (cfg : Config) (host : Host) (amountUsd : List Char)
    (tip : TipState) (payload : Payload) (e : JsError)
    (hreq : Event.request (.wallet_sendCalls payload) (some e)
      ∈ (runSendTip cfg host amountUsd tip).2.trace)
    (hrej : e.code = some 4001 ∨ MatchesRejectedIgnoringCase e.message) :
    (runSendTip cfg host amountUsd tip).1 = .ok none
      ∧ (runSendTip cfg host amountUsd tip).2.tip.cta = "Send USDC".toList
      ∧ (runSendTip cfg host amountUsd tip).2.tip.busy = false := by
  have hrej1 : e.code = some 4001 ∨ matchesRejected (errorText e) = true :=
    hrej.imp id (matchesRejected_of_message e)
  cases hcan : canSendTips cfg with
  | false =>
    rw [runSendTip_disabled _ _ _ _ hcan] at hreq
    simp at hreq
  | true =>
    obtain ⟨pre, hpre, h⟩ := runSendTip_enabled cfg host amountUsd tip hcan
    have hnot : Event.request (.wallet_sendCalls payload) (some e) ∉ pre :=
      fun hmem => by simpa [isPreludeEvent] using hpre _ hmem
    rcases h with ⟨e1, _, hrun⟩ | ⟨p, payload1, _, hrun⟩
    · rw [hrun] at hreq
      exact absurd hreq hnot
    · rw [hrun] at hreq ⊢
      rcases submitTip_cases p payload1 amountUsd
        with ⟨result, _, hsub⟩ | ⟨e2, _, _, hsub⟩ | ⟨e2, _, hc, hm, hsub⟩
      · rw [hsub] at hreq
        simp [openingEvents, hnot] at hreq
      · rw [hsub]
        exact ⟨rfl, rfl, rfl⟩
      · rw [hsub] at hreq
        simp only [openingEvents, List.mem_append, List.mem_cons, List.mem_singleton,
          List.not_mem_nil, or_false, hnot, false_or, Event.request.injEq, Option.some.injEq,
          reduceCtorEq] at hreq
        obtain ⟨_, rfl⟩ := hreq
        rcases hrej1 with h1 | h1
        · exact absurd h1 hc
        · rw [hm] at h1
          cases h1

set_option maxRecDepth 100000 in
/-- Witness of C6: a wallet that answers `wallet_sendCalls` with the
user-declined error 4001, and one whose error only mentions `REJECTED`. -/
theorem sendTip_rejection_is_cancelled_witness :
    ((runSendTip appConfig (hostOf (failingSend userRejectedError)) "5".toList initialTip).1
        = .ok none
      ∧ (runSendTip appConfig (hostOf (failingSend userRejectedError)) "5".toList
          initialTip).2.tip.cta = "Send USDC".toList
      ∧ (runSendTip appConfig (hostOf (failingSend userRejectedError)) "5".toList
          initialTip).2.tip.busy = false)
    ∧ (runSendTip appConfig (hostOf (failingSend nodeRejectedError)) "5".toList initialTip).1
        = .ok none :=
  ⟨sendTip_rejection_is_cancelled appConfig (hostOf (failingSend userRejectedError))
      "5".toList initialTip samplePayload userRejectedError (by decide) (Or.inl rfl),
   (sendTip_rejection_is_cancelled appConfig (hostOf (failingSend nodeRejectedError))
      "5".toList initialTip samplePayload nodeRejectedError (by decide)
      (Or.inr ⟨"Transaction ".toList, "REJECTED".toList, " by the node".toList,
        by decide, by decide⟩)).1⟩

/-- Which outcome a failed request of the prelude leads to. -/
theorem prepareTip_failure (cfg : Config) (host : Host) (amountUsd : List Char)
    (tip : TipState) (m : Method) (e : JsError)
    (hreq : Event.request m (some e)
      ∈ (prepareTip cfg host amountUsd { tip := tip, trace := [] }).2.trace) :
    (m = .eth_chainId
        ∧ (prepareTip cfg host amountUsd { tip := tip, trace := [] }).1 = .error e)
      ∨ (m = .wallet_switchEthereumChain "0x2105".toList
        ∧ (prepareTip cfg host amountUsd { tip := tip, trace := [] }).1
          = .error wrongNetworkError)
      ∨ (m = .eth_requestAccounts
        ∧ (prepareTip cfg host amountUsd { tip := tip, trace := [] }).1 = .error e) := by
  have hnet : ∀ p net, NetworkReady p net → Event.request m (some e) ∉ net := by
    intro p net h hmem
    rcases h with ⟨_, rfl⟩ | ⟨c, _, _, _, rfl⟩ <;> simp at hmem
  rcases prepareTip_cases cfg host amountUsd with ⟨_, h⟩ | ⟨p, _, h⟩
  · rw [h] at hreq
    simp at hreq
  rcases h with ⟨e1, _, h⟩ | ⟨c, e1, _, _, _, h⟩ | ⟨net, hn, h⟩
  · rw [h] at hreq ⊢
    simp at hreq
    obtain ⟨rfl, rfl⟩ := hreq
    exact Or.inl ⟨rfl, rfl⟩
  · rw [h] at hreq ⊢
    simp at hreq
    obtain ⟨rfl, rfl⟩ := hreq
    exact Or.inr (Or.inl ⟨rfl, rfl⟩)
  have hnot := hnet p net hn
  rcases h with ⟨e1, _, h⟩ | ⟨accounts, _, h⟩
  · rw [h] at hreq ⊢
    simp [hnot] at hreq
    obtain ⟨rfl, rfl⟩ := hreq
    exact Or.inr (Or.inr ⟨rfl, rfl⟩)
  rcases h with ⟨_, h⟩ | ⟨_, e1, _, h⟩ | ⟨_, r, e1, _, _, h⟩ | ⟨_, r, u, _, _, h⟩
  all_goals
    rw [h] at hreq
    simp [hnot] at hreq

set_option maxRecDepth 100000 in
/-- C7 as stated fails in three ways. A `wallet_sendCalls` error with code
-32000 whose message mentions `REJECTED` ends the run without any error; a
`wallet_switchEthereumChain` error with code 4902 is replaced by the
wrong-network error; and an `eth_chainId` error met after an earlier success
leaves the call-to-action at "Send again" instead of resetting it. -/
theorem sendTip_failure_counterexample :
    (Event.request (.wallet_sendCalls samplePayload) (some nodeRejectedError)
        ∈ (runSendTip appConfig (hostOf (failingSend nodeRejectedError)) "5".toList
            initialTip).2.trace
      ∧ nodeRejectedError.code ≠ some 4001
      ∧ (runSendTip appConfig (hostOf (failingSend nodeRejectedError)) "5".toList
          initialTip).1 = .ok none)
    ∧ (Event.request (.wallet_switchEthereumChain "0x2105".toList) (some unknownChainError)
        ∈ (runSendTip appConfig (hostOf (failingSwitch unknownChainError)) "5".toList
            initialTip).2.trace
      ∧ unknownChainError.code ≠ some 4001
      ∧ (runSendTip appConfig (hostOf (failingSwitch unknownChainError)) "5".toList
          initialTip).1 = .error wrongNetworkError
      ∧ wrongNetworkError ≠ unknownChainError)
    ∧ (Event.request .eth_chainId (some internalError)
        ∈ (runSendTip appConfig (hostOf (failingChainId internalError)) "5".toList
            tipAfterSuccess).2.trace
      ∧ internalError.code ≠ some 4001
      ∧ (runSendTip appConfig (hostOf (failingChainId internalError)) "5".toList
          tipAfterSuccess).2.tip.cta = "Send again".toList) := by
  decide

/-- C7, amended. When a request of a run fails with an error `e` whose code
is not 4001: a failed `eth_chainId` or `eth_requestAccounts` makes `sendTip`
reject with `e` itself, the tip state untouched; a failed
`wallet_switchEthereumChain` makes it reject with the wrong-network error,
the tip state untouched; a failed `wallet_sendCalls` whose text does not match
`rejected` makes it reject with `e` itself after resetting the
call-to-action to "Send USDC" with `busy = false`. -/
theorem sendTip_failure_preserved (cfg : Config) (host : Host) (amountUsd : List Char)
    (tip : TipState) (m : Method) (e : JsError)
    (hreq : Event.request m (some e) ∈ (runSendTip cfg host amountUsd tip).2.trace)
    (hcode : e.code ≠ some 4001) :
    ((m = .eth_chainId ∨ m = .eth_requestAccounts) →
        (runSendTip cfg host amountUsd tip).1 = .error e
          ∧ (runSendTip cfg host amountUsd tip).2.tip = tip)
      ∧ ((∃ chainId, m = .wallet_switchEthereumChain chainId) →
        (runSendTip cfg host amountUsd tip).1 = .error wrongNetworkError
          ∧ (runSendTip cfg host amountUsd tip).2.tip = tip)
      ∧ (∀ payload, m = .wallet_sendCalls payload → matchesRejected (errorText e) = false →
        (runSendTip cfg host amountUsd tip).1 = .error e
          ∧ (runSendTip cfg host amountUsd tip).2.tip
            = { tip with cta := "Send USDC".toList, busy := false }) := by
  cases hcan : canSendTips cfg with
  | false =>
    rw [runSendTip_disabled _ _ _ _ hcan] at hreq
    simp at hreq
  | true =>
    obtain ⟨pre, hpre, h⟩ := runSendTip_enabled cfg host amountUsd tip hcan
    rcases h with ⟨e1, hprep, hrun⟩ | ⟨p, payload1, hprep, hrun⟩
    · rw [hrun] at hreq ⊢
      have hfail := prepareTip_failure cfg host amountUsd tip m e (by rw [hprep]; exact hreq)
      rw [hprep] at hfail
      rcases hfail with ⟨rfl, hres⟩ | ⟨rfl, hres⟩ | ⟨rfl, hres⟩
      · have he : e1 = e := by simpa using hres
        subst he
        exact ⟨fun _ => ⟨rfl, rfl⟩, fun h => (by obtain ⟨_, h⟩ := h; cases h),
          fun _ h => (by cases h)⟩
      · have he : e1 = wrongNetworkError := by simpa using hres
        subst he
        exact ⟨fun h => (by rcases h with h | h <;> cases h), fun _ => ⟨rfl, rfl⟩,
          fun _ h => (by cases h)⟩
      · have he : e1 = e := by simpa using hres
        subst he
        exact ⟨fun _ => ⟨rfl, rfl⟩, fun h => (by obtain ⟨_, h⟩ := h; cases h),
          fun _ h => (by cases h)⟩
    · rw [hrun] at hreq ⊢
      have hnot : Event.request m (some e) ∉ pre := by
        intro hmem
        have hfail := prepareTip_failure cfg host amountUsd tip m e (by rw [hprep]; exact hmem)
        rw [hprep] at hfail
        rcases hfail with ⟨_, hres⟩ | ⟨_, hres⟩ | ⟨_, hres⟩ <;> cases hres
      rcases submitTip_cases p payload1 amountUsd
        with ⟨result, _, hsub⟩ | ⟨e2, _, hr, hsub⟩ | ⟨e2, _, hc, hm, hsub⟩
      · rw [hsub] at hreq
        simp [openingEvents, hnot] at hreq
      · rw [hsub] at hreq ⊢
        simp only [openingEvents, List.mem_append, List.mem_cons, List.mem_singleton,
          List.not_mem_nil, or_false, hnot, false_or, Event.request.injEq, Option.some.injEq,
          reduceCtorEq] at hreq
        obtain ⟨rfl, rfl⟩ := hreq
        refine ⟨fun h => (by rcases h with h | h <;> cases h),
          fun h => (by obtain ⟨_, h⟩ := h; cases h), ?_⟩
        intro payload _ hm
        rcases hr with hr | hr
        · exact absurd hr hcode
        · rw [hm] at hr
          cases hr
      · rw [hsub] at hreq ⊢
        simp only [openingEvents, List.mem_append, List.mem_cons, List.mem_singleton,
          List.not_mem_nil, or_false, hnot, false_or, Event.request.injEq, Option.some.injEq,
          reduceCtorEq] at hreq
        obtain ⟨rfl, rfl⟩ := hreq
        exact ⟨fun h => (by rcases h with h | h <;> cases h),
          fun h => (by obtain ⟨_, h⟩ := h; cases h), fun _ _ _ => ⟨rfl, rfl⟩⟩

set_option maxRecDepth 100000 in
/-- Witness of C7: a `wallet_sendCalls` request that fails with the internal
error -32603. -/
theorem sendTip_failure_preserved_witness :
    (runSendTip appConfig (hostOf (failingSend internalError)) "5".toList initialTip).1
        = .error internalError
      ∧ (runSendTip appConfig (hostOf (failingSend internalError)) "5".toList initialTip).2.tip
        = { initialTip with cta := "Send USDC".toList, busy := false } :=
  (sendTip_failure_preserved appConfig (hostOf (failingSend internalError)) "5".toList
    initialTip (.wallet_sendCalls samplePayload) internalError (by decide) (by decide)).2.2
    samplePayload rfl (by decide)

/-! ## Disabled sending -/

theorem canSendTips_false_iff (cfg : Config) :
    canSendTips cfg = false ↔
      (cfg.BUILDER_CODE = [] ∨ Contains cfg.BUILDER_CODE "TODO".toList
        ∨ cfg.RECIPIENT = [] ∨ Contains cfg.RECIPIENT "TODO".toList
        ∨ ¬ HasAddressShape cfg.RECIPIENT) := by
  have hb : includes cfg.BUILDER_CODE "TODO".toList = true
      ↔ Contains cfg.BUILDER_CODE "TODO".toList :=
    ⟨contains_of_includes _ _, includes_of_contains _ _⟩
  have hr : includes cfg.RECIPIENT "TODO".toList = true
      ↔ Contains cfg.RECIPIENT "TODO".toList :=
    ⟨contains_of_includes _ _, includes_of_contains _ _⟩
  rw [← hb, ← hr, ← isAddressLike_iff]
  unfold canSendTips
  cases h1 : cfg.BUILDER_CODE.isEmpty <;> cases h2 : includes cfg.BUILDER_CODE "TODO".toList
    <;> cases h3 : cfg.RECIPIENT.isEmpty <;> cases h4 : includes cfg.RECIPIENT "TODO".toList
    <;> cases h5 : isAddressLike cfg.RECIPIENT
    <;> simp only [List.isEmpty_iff, List.isEmpty_eq_false] at h1 h3
    <;> simp [h1, h3]

set_option maxRecDepth 100000 in
/-- C8 as stated fails: with the all-zero address as recipient, which
`validateRecipientOrThrow` rejects, sending is enabled and a run discovers
the provider and sends `eth_chainId` and `eth_requestAccounts` before it
fails. -/
theorem sendTip_zero_recipient_counterexample :
    validateRecipientOrThrow zeroRecipientConfig.RECIPIENT
        = .error (newError "Recipient cannot be zero address.")
      ∧ canSendTips zeroRecipientConfig = true
      ∧ runSendTip zeroRecipientConfig okHost "5".toList initialTip
        = (.error (newError "Recipient cannot be zero address."),
            { tip := initialTip,
              trace := [Event.getEthereumProvider, Event.request .eth_chainId none,
                Event.request .eth_requestAccounts none] }) := by
  decide

/-- C8, amended. When the attribution code is missing or contains `TODO`, or
the recipient is missing, contains `TODO` or lacks the shape `0x` plus 40
hexadecimal characters, `sendTip` resolves without a result, leaves the tip
state unchanged, and neither discovers a provider nor sends any request: its
only effect is the warning toast. -/
theorem sendTip_disabled_no_wallet (cfg : Config) (host : Host) (amountUsd : List Char)
    (tip : TipState)
    (h : cfg.BUILDER_CODE = [] ∨ Contains cfg.BUILDER_CODE "TODO".toList
      ∨ cfg.RECIPIENT = [] ∨ Contains cfg.RECIPIENT "TODO".toList
      ∨ ¬ HasAddressShape cfg.RECIPIENT) :
    (runSendTip cfg host amountUsd tip).1 = .ok none
      ∧ (runSendTip cfg host amountUsd tip).2.tip = tip
      ∧ Event.getEthereumProvider ∉ (runSendTip cfg host amountUsd tip).2.trace
      ∧ (∀ m f, Event.request m f ∉ (runSendTip cfg host amountUsd tip).2.trace)
      ∧ (∀ text busy, Event.setCta text busy ∉ (runSendTip cfg host amountUsd tip).2.trace) := by
  have hcan := (canSendTips_false_iff cfg).mpr h
  rw [runSendTip_disabled _ _ _ _ hcan]
  refine ⟨rfl, rfl, by simp, fun m f => by simp, fun t b => by simp⟩

/-- Witness of C8: a configuration whose attribution code is still the
placeholder. -/
theorem sendTip_disabled_no_wallet_witness :
    (runSendTip { appConfig with BUILDER_CODE := "TODO_BUILDER_CODE".toList } okHost
        "5".toList initialTip).1 = .ok none
      ∧ (runSendTip { appConfig with BUILDER_CODE := "TODO_BUILDER_CODE".toList } okHost
        "5".toList initialTip).2.tip = initialTip :=
  ⟨(sendTip_disabled_no_wallet { appConfig with BUILDER_CODE := "TODO_BUILDER_CODE".toList }
      okHost "5".toList initialTip
      (Or.inr (Or.inl ⟨[], "_BUILDER_CODE".toList, by decide⟩))).1,
   (sendTip_disabled_no_wallet { appConfig with BUILDER_CODE := "TODO_BUILDER_CODE".toList }
      okHost "5".toList initialTip
      (Or.inr (Or.inl ⟨[], "_BUILDER_CODE".toList, by decide⟩))).2.1⟩

/-! ## Validation inside a run -/

/-- A prelude that succeeds has validated the recipient and the amount, and
its payload is the one built from them. -/
theorem prepareTip_ok_inv (cfg : Config) (host : Host) (amountUsd : List Char) (w w1 : World)
    (p : Provider) (payload : Payload)
    (h : prepareTip cfg host amountUsd w = (.ok (p, payload), w1)) :
    ∃ r u accounts, validateRecipientOrThrow cfg.RECIPIENT = .ok r
      ∧ parseUsdToUsdcUnits amountUsd = .ok u
      ∧ discover host = some p
      ∧ p.eth_requestAccounts = .ok accounts ∧ accounts.headD [] ≠ []
      ∧ payload = tipPayload cfg host (accounts.headD []) (encodeErc20TransferData r u) := by
  rcases prepareTip_cases cfg host amountUsd with ⟨_, hb⟩ | ⟨q, hd, hb⟩
  · rw [hb] at h
    simp at h
  rcases hb with ⟨e, _, hb⟩ | ⟨c, e, _, _, _, hb⟩ | ⟨net, _, hb⟩
  · rw [hb] at h
    simp at h
  · rw [hb] at h
    simp at h
  rcases hb with ⟨e, _, hb⟩ | ⟨accounts, ha, hb⟩
  · rw [hb] at h
    simp at h
  rcases hb with ⟨_, hb⟩ | ⟨_, e, _, hb⟩ | ⟨_, r, e, _, _, hb⟩ | ⟨hne, r, u, hv, hp, hb⟩
  · rw [hb] at h
    simp at h
  · rw [hb] at h
    simp at h
  · rw [hb] at h
    simp at h
  · rw [hb] at h
    simp only [Prod.mk.injEq, Except.ok.injEq] at h
    obtain ⟨⟨rfl, rfl⟩, _⟩ := h
    exact ⟨r, u, accounts, hv, hp, hd, ha, hne, rfl⟩

/-- The prelude once a provider is found, the network is ready and an
account is connected: what is left is the two validations. -/
theorem prepareTip_of_ready (cfg : Config) (host : Host) (amountUsd : List Char)
    (p : Provider) (net : List Event) (accounts : List (List Char))
    (hd : discover host = some p) (hn : NetworkReady p net)
    (ha : p.eth_requestAccounts = .ok accounts) (hne : accounts.headD [] ≠ []) (w : World) :
    prepareTip cfg host amountUsd w =
      ((match validateRecipientOrThrow cfg.RECIPIENT with
        | .error v => .error v
        | .ok r =>
          match parseUsdToUsdcUnits amountUsd with
          | .error v => .error v
          | .ok u => .ok (p, tipPayload cfg host (accounts.headD [])
              (encodeErc20TransferData r u))),
       { w with trace := w.trace ++ (Event.getEthereumProvider :: net
          ++ [Event.request .eth_requestAccounts none]) }) := by
  have hens := ensureBaseMainnet_ready p net hn
  rcases accounts with _ | ⟨_ | ⟨c, cs⟩, rest⟩
  · exact absurd rfl hne
  · exact absurd rfl hne
  simp only [prepareTip, bind, Run.bind, getProvider_eq, hd, hens, request, ha]
  rcases validateRecipientOrThrow cfg.RECIPIENT with e | r
  · simp [failureOf, Run.bind, liftExcept]
  rcases parseUsdToUsdcUnits amountUsd with e | u
  · simp [failureOf, Run.bind, liftExcept]
  · simp [failureOf, Run.bind, liftExcept, pure, Run.pure, tipPayload]

theorem runSendTip_of_prepare_error (cfg : Config) (host : Host) (amountUsd : List Char)
    (tip : TipState) (hcan : canSendTips cfg = true) (e : JsError) (w1 : World)
    (h : prepareTip cfg host amountUsd { tip := tip, trace := [] } = (.error e, w1)) :
    runSendTip cfg host amountUsd tip = (.error e, w1) := by
  rw [runSendTip, sendTip_eq _ _ _ _ hcan, h]

theorem runSendTip_of_prepare_ok (cfg : Config) (host : Host) (amountUsd : List Char)
    (tip : TipState) (hcan : canSendTips cfg = true) (p : Provider) (payload : Payload)
    (w1 : World)
    (h : prepareTip cfg host amountUsd { tip := tip, trace := [] } = (.ok (p, payload), w1)) :
    runSendTip cfg host amountUsd tip = submitTip p payload amountUsd w1 := by
  rw [runSendTip, sendTip_eq _ _ _ _ hcan, h]

set_option maxRecDepth 100000 in
/-- C9 as stated fails: with sending enabled, the rejected amount text
`"abc"` (and likewise the rejected all-zero recipient) is reported only after
the provider was discovered and `eth_chainId` and `eth_requestAccounts` were
sent. -/
theorem sendTip_validation_counterexample :
    (canSendTips appConfig = true
      ∧ parseUsdToUsdcUnits "abc".toList = .error (newError "Amount must be a number.")
      ∧ runSendTip appConfig okHost "abc".toList initialTip
        = (.error (newError "Amount must be a number."),
            { tip := initialTip,
              trace := [Event.getEthereumProvider, Event.request .eth_chainId none,
                Event.request .eth_requestAccounts none] }))
    ∧ (canSendTips zeroRecipientConfig = true
      ∧ (runSendTip zeroRecipientConfig okHost "5".toList initialTip).2.trace
        = [Event.getEthereumProvider, Event.request .eth_chainId none,
            Event.request .eth_requestAccounts none]) := by
  decide

/-- C9, amended. With sending enabled, a run whose amount text or recipient
is rejected always ends in an error, never sends `wallet_sendCalls`, never
calls `setCta` and leaves the tip state unchanged; once a provider is found,
the network is ready and an account is connected, the error is the
validation error itself (the recipient's first), surfaced after the provider
discovery and the `eth_chainId`, switch and `eth_requestAccounts` requests. -/
theorem sendTip_validation_after_prelude (cfg : Config) (host : Host) (amountUsd : List Char)
    (tip : TipState) (hcan : canSendTips cfg = true)
    (hbad : (∃ v, parseUsdToUsdcUnits amountUsd = .error v)
      ∨ (∃ v, validateRecipientOrThrow cfg.RECIPIENT = .error v)) :
    (∃ e, (runSendTip cfg host amountUsd tip).1 = .error e)
      ∧ (runSendTip cfg host amountUsd tip).2.tip = tip
      ∧ (∀ payload f, Event.request (.wallet_sendCalls payload) f
          ∉ (runSendTip cfg host amountUsd tip).2.trace)
      ∧ (∀ text busy, Event.setCta text busy ∉ (runSendTip cfg host amountUsd tip).2.trace)
      ∧ (∀ p net accounts, discover host = some p → NetworkReady p net →
          p.eth_requestAccounts = .ok accounts → accounts.headD [] ≠ [] →
          (runSendTip cfg host amountUsd tip).2.trace
              = Event.getEthereumProvider :: net ++ [Event.request .eth_requestAccounts none]
            ∧ (∀ v, validateRecipientOrThrow cfg.RECIPIENT = .error v →
                (runSendTip cfg host amountUsd tip).1 = .error v)
            ∧ (∀ r v, validateRecipientOrThrow cfg.RECIPIENT = .ok r →
                parseUsdToUsdcUnits amountUsd = .error v →
                (runSendTip cfg host amountUsd tip).1 = .error v)) := by
  obtain ⟨pre, hpre, h⟩ := runSendTip_enabled cfg host amountUsd tip hcan
  rcases h with ⟨e1, hprep, hrun⟩ | ⟨p, payload1, hprep, _⟩
  · refine ⟨⟨e1, by rw [hrun]⟩, by rw [hrun], ?_, ?_, ?_⟩
    · intro payload f hmem
      rw [hrun] at hmem
      simpa [isPreludeEvent] using hpre _ hmem
    · intro text busy hmem
      rw [hrun] at hmem
      simpa [isPreludeEvent] using hpre _ hmem
    · intro p net accounts hd hn ha hne
      have hready := prepareTip_of_ready cfg host amountUsd p net accounts hd hn ha hne
        { tip := tip, trace := [] }
      refine ⟨?_, ?_, ?_⟩
      · rw [hrun]
        rw [hprep] at hready
        have := congrArg (fun x => x.2.trace) hready
        simpa using this
      · intro v hv
        rw [hv] at hready
        rw [runSendTip_of_prepare_error cfg host amountUsd tip hcan v _ hready]
      · intro r v hv hp
        rw [hv, hp] at hready
        rw [runSendTip_of_prepare_error cfg host amountUsd tip hcan v _ hready]
  · obtain ⟨r, u, accounts, hv, hp, _⟩ :=
      prepareTip_ok_inv cfg host amountUsd _ _ p payload1 hprep
    rcases hbad with ⟨v, hv1⟩ | ⟨v, hv1⟩
    · rw [hp] at hv1
      cases hv1
    · rw [hv] at hv1
      cases hv1

set_option maxRecDepth 100000 in
/-- Witness of C9: the amount text `"abc"` with the configuration of app.js
and a wallet that is ready. The run fails with the amount's error, after the
provider discovery and two requests. -/
theorem sendTip_validation_after_prelude_witness :
    (runSendTip appConfig okHost "abc".toList initialTip).2.tip = initialTip
      ∧ (runSendTip appConfig okHost "abc".toList initialTip).2.trace
        = Event.getEthereumProvider :: [Event.request .eth_chainId none]
          ++ [Event.request .eth_requestAccounts none]
      ∧ (runSendTip appConfig okHost "abc".toList initialTip).1
        = .error (newError "Amount must be a number.") :=
  ⟨(sendTip_validation_after_prelude appConfig okHost "abc".toList initialTip (by decide)
      (Or.inl ⟨newError "Amount must be a number.", by decide⟩)).2.1,
   ((sendTip_validation_after_prelude appConfig okHost "abc".toList initialTip (by decide)
      (Or.inl ⟨newError "Amount must be a number.", by decide⟩)).2.2.2.2
      okProvider [Event.request .eth_chainId none]
      ["0x1111111111111111111111111111111111111111".toList] rfl (Or.inl ⟨rfl, rfl⟩) rfl
      (by decide)).1,
   ((sendTip_validation_after_prelude appConfig okHost "abc".toList initialTip (by decide)
      (Or.inl ⟨newError "Amount must be a number.", by decide⟩)).2.2.2.2
      okProvider [Event.request .eth_chainId none]
      ["0x1111111111111111111111111111111111111111".toList] rfl (Or.inl ⟨rfl, rfl⟩) rfl
      (by decide)).2.2 RECIPIENT (newError "Amount must be a number.") (by decide) (by decide)⟩

/-! ## The busy flag -/

/-- The prelude does not depend on the world it starts from: one outcome and
one list of prelude effects serve every world. -/
theorem prepareTip_uniform (cfg : Config) (host : Host) (amountUsd : List Char) :
    ∃ res pre, (∀ ev ∈ pre, isPreludeEvent ev = true)
      ∧ ∀ w, prepareTip cfg host amountUsd w = (res, { w with trace := w.trace ++ pre }) := by
  have hnet : ∀ p net, NetworkReady p net → ∀ ev ∈ net, isPreludeEvent ev = true := by
    intro p net h ev hev
    rcases h with ⟨_, rfl⟩ | ⟨c, _, _, _, rfl⟩ <;> simp at hev <;>
      rcases hev with rfl | rfl <;> rfl
  rcases prepareTip_cases cfg host amountUsd with ⟨_, h⟩ | ⟨p, _, h⟩
  · exact ⟨_, _, by simp [isPreludeEvent], h⟩
  rcases h with ⟨e, _, h⟩ | ⟨c, e, _, _, _, h⟩ | ⟨net, hn, h⟩
  · exact ⟨_, _, by simp [isPreludeEvent], h⟩
  · exact ⟨_, _, by simp [isPreludeEvent], h⟩
  have hpre : ∀ f, ∀ ev ∈ Event.getEthereumProvider :: net
      ++ [Event.request .eth_requestAccounts f], isPreludeEvent ev = true := by
    intro f ev hev
    simp only [List.cons_append, List.mem_cons, List.mem_append, List.mem_singleton,
      List.not_mem_nil, or_false] at hev
    rcases hev with rfl | hev | rfl
    · rfl
    · exact hnet p net hn ev hev
    · rfl
  rcases h with ⟨e, _, h⟩ | ⟨accounts, _, h⟩
  · exact ⟨_, _, hpre _, h⟩
  rcases h with ⟨_, h⟩ | ⟨_, e, _, h⟩ | ⟨_, r, e, _, _, h⟩ | ⟨_, r, u, _, _, h⟩
  all_goals exact ⟨_, _, hpre _, h⟩

theorem busyAtEachSend_prelude (tip : TipState) (pre rest : List Event)
    (h : ∀ ev ∈ pre, isPreludeEvent ev = true) :
    busyAtEachSend tip (pre ++ rest) = busyAtEachSend tip rest := by
  induction pre with
  | nil => rfl
  | cons ev evs ih =>
    have hev := h ev (List.mem_cons_self _ _)
    have ih1 := ih (fun x hx => h x (List.mem_cons_of_mem _ hx))
    cases ev with
    | toast _ _ => cases hev
    | getEthereumProvider => simpa [busyAtEachSend] using ih1
    | request m f =>
      cases m with
      | wallet_sendCalls _ => cases hev
      | eth_chainId => simpa [busyAtEachSend] using ih1
      | wallet_switchEthereumChain _ => simpa [busyAtEachSend] using ih1
      | eth_requestAccounts => simpa [busyAtEachSend] using ih1
    | setCta _ _ => cases hev
    | sleep _ => cases hev

theorem tipAfter_prelude (tip : TipState) (pre rest : List Event)
    (h : ∀ ev ∈ pre, isPreludeEvent ev = true) :
    tipAfter tip (pre ++ rest) = tipAfter tip rest := by
  induction pre with
  | nil => rfl
  | cons ev evs ih =>
    have hev := h ev (List.mem_cons_self _ _)
    have ih1 := ih (fun x hx => h x (List.mem_cons_of_mem _ hx))
    cases ev with
    | toast _ _ => cases hev
    | getEthereumProvider => simpa [tipAfter] using ih1
    | request m f => simpa [tipAfter] using ih1
    | setCta _ _ => cases hev
    | sleep _ => cases hev

/-- `sendTip` never reads the tip state: started from any tip state, busy or
not, it has the same outcome and the same effects. Every `wallet_sendCalls`
request is sent while `busy = true`, a run that called `setCta` ends with
`busy = false`, and the tip state left behind is the one its `setCta` calls
wrote. -/
theorem sendTip_ignores_busy (cfg : Config) (host : Host) (amountUsd : List Char)
    (tip : TipState) :
    (∀ tip2, (runSendTip cfg host amountUsd tip2).1 = (runSendTip cfg host amountUsd tip).1
        ∧ (runSendTip cfg host amountUsd tip2).2.trace
          = (runSendTip cfg host amountUsd tip).2.trace)
      ∧ busyAtEachSend tip (runSendTip cfg host amountUsd tip).2.trace = true
      ∧ ((∃ text busy, Event.setCta text busy ∈ (runSendTip cfg host amountUsd tip).2.trace) →
          (runSendTip cfg host amountUsd tip).2.tip.busy = false)
      ∧ (runSendTip cfg host amountUsd tip).2.tip
          = tipAfter tip (runSendTip cfg host amountUsd tip).2.trace := by
  cases hcan : canSendTips cfg with
  | false =>
    refine ⟨fun tip2 => ?_, ?_, ?_, ?_⟩
    · rw [runSendTip_disabled _ _ _ tip2 hcan, runSendTip_disabled _ _ _ tip hcan]
      exact ⟨rfl, rfl⟩
    · rw [runSendTip_disabled _ _ _ tip hcan]
      rfl
    · rw [runSendTip_disabled _ _ _ tip hcan]
      rintro ⟨text, busy, hmem⟩
      simp at hmem
    · rw [runSendTip_disabled _ _ _ tip hcan]
      rfl
  | true =>
    obtain ⟨res, pre, hpre, hprep⟩ := prepareTip_uniform cfg host amountUsd
    have hnot : ∀ text busy, Event.setCta text busy ∉ pre :=
      fun text busy hmem => by simpa [isPreludeEvent] using hpre _ hmem
    rcases res with e | ⟨p, payload⟩
    · have hrun : ∀ t, runSendTip cfg host amountUsd t
          = (.error e, { tip := t, trace := pre }) := by
        intro t
        rw [runSendTip_of_prepare_error cfg host amountUsd t hcan e _ (hprep _)]
        simp
      refine ⟨fun tip2 => by rw [hrun tip2, hrun tip]; exact ⟨rfl, rfl⟩, ?_, ?_, ?_⟩
      · rw [hrun tip]
        have := busyAtEachSend_prelude tip pre [] hpre
        simpa [busyAtEachSend] using this
      · rw [hrun tip]
        rintro ⟨text, busy, hmem⟩
        exact absurd hmem (hnot text busy)
      · rw [hrun tip]
        have := tipAfter_prelude tip pre [] hpre
        simpa [tipAfter] using this.symm
    · have hrun : ∀ t, runSendTip cfg host amountUsd t
          = submitTip p payload amountUsd { tip := t, trace := pre } := by
        intro t
        rw [runSendTip_of_prepare_ok cfg host amountUsd t hcan p payload _ (hprep _)]
        simp
      rcases submitTip_cases p payload amountUsd
        with ⟨result, _, hsub⟩ | ⟨e2, _, _, hsub⟩ | ⟨e2, _, _, _, hsub⟩
      all_goals
        refine ⟨fun tip2 => by rw [hrun tip2, hrun tip, hsub, hsub]; exact ⟨rfl, rfl⟩,
          ?_, ?_, ?_⟩
        · rw [hrun tip, hsub]
          simp only []
          rw [busyAtEachSend_prelude tip pre _ hpre]
          rfl
        · rw [hrun tip, hsub]
          intro _
          rfl
        · rw [hrun tip, hsub]
          simp only []
          rw [tipAfter_prelude tip pre _ hpre]
          rfl

set_option maxRecDepth 100000 in
/-- C10 at the failing input: two clicks on the call-to-action with the
amount `"5"`, the second while the first run is still in its prelude. After
the whole prelude of the first run the tip state is as it was, `busy` is
false and `render` leaves the button enabled; the two runs together send two
`wallet_sendCalls` requests, both answered. And a call made while
`busy = true` is not ignored either: it sends `wallet_sendCalls` and rewrites
the tip state. -/
theorem sendTip_two_clicks :
    ((prepareTip appConfig okHost "5".toList { tip := initialTip, trace := [] }).2.tip
        = initialTip
      ∧ (prepareTip appConfig okHost "5".toList { tip := initialTip, trace := [] }).2.trace
        = [Event.getEthereumProvider, Event.request .eth_chainId none,
            Event.request .eth_requestAccounts none]
      ∧ ctaDisabled appConfig
          (prepareTip appConfig okHost "5".toList { tip := initialTip, trace := [] }).2.tip
        = false)
    ∧ ((twoClicks appConfig okHost "5".toList { tip := initialTip, trace := [] }).1
        = .ok (some "0xbundle".toList, some "0xbundle".toList)
      ∧ ((twoClicks appConfig okHost "5".toList
          { tip := initialTip, trace := [] }).2.trace.filter isSendCalls)
        = [Event.request (.wallet_sendCalls samplePayload) none,
            Event.request (.wallet_sendCalls samplePayload) none])
    ∧ (busyTip.busy = true
      ∧ Event.request (.wallet_sendCalls samplePayload) none
        ∈ (runSendTip appConfig okHost "5".toList busyTip).2.trace
      ∧ (runSendTip appConfig okHost "5".toList busyTip).2.tip ≠ busyTip) := by
  decide

/-! ## The submitted bundle -/

/-- An accepted recipient is returned as it is. -/
theorem validated_eq (s r : List Char) (h : validateRecipientOrThrow s = .ok r) : r = s := by
  unfold validateRecipientOrThrow at h
  split at h
  · cases h
  · split at h
    · cases h
    · cases h
      rfl

theorem filter_isSendCalls_prelude (pre : List Event)
    (h : ∀ ev ∈ pre, isPreludeEvent ev = true) : pre.filter isSendCalls = [] := by
  rw [List.filter_eq_nil_iff]
  intro ev hev
  have hp := h ev hev
  cases ev with
  | toast _ _ => cases hp
  | getEthereumProvider => simp [isSendCalls]
  | request m f =>
    cases m with
    | wallet_sendCalls _ => cases hp
    | eth_chainId => simp [isSendCalls]
    | wallet_switchEthereumChain _ => simp [isSendCalls]
    | eth_requestAccounts => simp [isSendCalls]
  | setCta _ _ => cases hp
  | sleep _ => cases hp

/-- C11. A run sends at most one `wallet_sendCalls` request, and the bundle
of every such request has `atomicRequired = true`, `chainId` `"0x2105"`,
`from` the first account `eth_requestAccounts` returned, exactly one call, to
the USDC contract, with value `"0x0"` and data
`encodeErc20TransferData(RECIPIENT, parseUsdToUsdcUnits(amountUsd))`, and as
`dataSuffix` the attribution suffix of the one configured code. -/
theorem sendTip_bundle (cfg : Config) (host : Host) (amountUsd : List Char) (tip : TipState) :
    ((runSendTip cfg host amountUsd tip).2.trace.filter isSendCalls).length ≤ 1
      ∧ ∀ payload f, Event.request (.wallet_sendCalls payload) f
          ∈ (runSendTip cfg host amountUsd tip).2.trace →
        ∃ p accounts u, discover host = some p
          ∧ p.eth_requestAccounts = .ok accounts
          ∧ accounts.head? = some payload.from_
          ∧ parseUsdToUsdcUnits amountUsd = .ok u
          ∧ payload.atomicRequired = true
          ∧ payload.chainId = "0x2105".toList
          ∧ payload.calls = [Call.mk cfg.USDC_CONTRACT "0x0".toList
              (encodeErc20TransferData cfg.RECIPIENT u)]
          ∧ payload.dataSuffix = host.toDataSuffix [cfg.BUILDER_CODE] := by
  cases hcan : canSendTips cfg with
  | false =>
    rw [runSendTip_disabled _ _ _ _ hcan]
    refine ⟨by simp [isSendCalls], fun payload f hmem => ?_⟩
    simp at hmem
  | true =>
    obtain ⟨res, pre, hpre, hprep⟩ := prepareTip_uniform cfg host amountUsd
    have hfilter := filter_isSendCalls_prelude pre hpre
    have hnot : ∀ payload f, Event.request (.wallet_sendCalls payload) f ∉ pre :=
      fun payload f hmem => by simpa [isPreludeEvent] using hpre _ hmem
    rcases res with e | ⟨p, payload1⟩
    · rw [runSendTip_of_prepare_error cfg host amountUsd tip hcan e _ (hprep _)]
      refine ⟨by simp [hfilter], fun payload f hmem => ?_⟩
      exact absurd (by simpa using hmem) (hnot payload f)
    · obtain ⟨r, u, accounts, hv, hp, hd, ha, hne, hpay⟩ :=
        prepareTip_ok_inv cfg host amountUsd _ _ p payload1 (hprep { tip := tip, trace := [] })
      have hr := validated_eq _ _ hv
      subst hr
      have hhead : accounts.head? = some (accounts.headD []) := by
        cases accounts with
        | nil => exact absurd rfl hne
        | cons a as => rfl
      rw [runSendTip_of_prepare_ok cfg host amountUsd tip hcan p payload1 _ (hprep _)]
      have hgoal : ∀ payload, payload = payload1 →
          ∃ p accounts u, discover host = some p
            ∧ p.eth_requestAccounts = .ok accounts
            ∧ accounts.head? = some payload.from_
            ∧ parseUsdToUsdcUnits amountUsd = .ok u
            ∧ payload.atomicRequired = true
            ∧ payload.chainId = "0x2105".toList
            ∧ payload.calls = [Call.mk cfg.USDC_CONTRACT "0x0".toList
                (encodeErc20TransferData cfg.RECIPIENT u)]
            ∧ payload.dataSuffix = host.toDataSuffix [cfg.BUILDER_CODE] := by
        intro payload hpl
        subst hpl
        subst hpay
        exact ⟨p, accounts, u, hd, ha, hhead, hp, rfl, rfl, rfl, rfl⟩
      rcases submitTip_cases p payload1 amountUsd
        with ⟨result, _, hsub⟩ | ⟨e2, _, _, hsub⟩ | ⟨e2, _, _, _, hsub⟩
      all_goals
        rw [hsub]
        refine ⟨by simp [hfilter, openingEvents, isSendCalls], fun payload f hmem => ?_⟩
        apply hgoal
        simp only [List.nil_append, openingEvents, List.mem_append, List.mem_cons,
          List.mem_singleton, List.not_mem_nil, or_false, hnot, false_or, Event.request.injEq,
          Method.wallet_sendCalls.injEq, reduceCtorEq, false_and] at hmem
        exact hmem.1

set_option maxRecDepth 100000 in
/-- Witness of C11: the bundle of an approved run with the configuration of
app.js and the amount `"5"`. -/
theorem sendTip_bundle_witness :
    ((runSendTip appConfig okHost "5".toList initialTip).2.trace.filter isSendCalls).length ≤ 1
      ∧ ∃ p accounts u, discover okHost = some p
          ∧ p.eth_requestAccounts = .ok accounts
          ∧ accounts.head? = some samplePayload.from_
          ∧ parseUsdToUsdcUnits "5".toList = .ok u
          ∧ samplePayload.atomicRequired = true
          ∧ samplePayload.chainId = "0x2105".toList
          ∧ samplePayload.calls = [Call.mk appConfig.USDC_CONTRACT "0x0".toList
              (encodeErc20TransferData appConfig.RECIPIENT u)]
          ∧ samplePayload.dataSuffix = okHost.toDataSuffix [appConfig.BUILDER_CODE] :=
  ⟨(sendTip_bundle appConfig okHost "5".toList initialTip).1,
   (sendTip_bundle appConfig okHost "5".toList initialTip).2 samplePayload none (by decide)⟩

/-! ## The network check -/

theorem ensureBaseMainnet_switch_failed (p : Provider) (c : List Char) (e : JsError)
    (hc : p.eth_chainId = .ok c) (hne : c ≠ "0x2105".toList)
    (hs : p.wallet_switchEthereumChain = .error e) (w : World) :
    ensureBaseMainnet p w = (.error wrongNetworkError,
      { w with trace := w.trace ++ [Event.request .eth_chainId none,
        Event.request (.wallet_switchEthereumChain "0x2105".toList) (some e)] }) := by
  simp only [ensureBaseMainnet, bind, Run.bind, request, hc, hs, failureOf, hne, if_false]
  simp [Run.tryCatch, request, Run.throw, failureOf, wrongNetworkError, hs]

theorem ensureBaseMainnet_trace (q : Provider) (w : World) :
    (q.eth_chainId = .ok "0x2105".toList →
        (ensureBaseMainnet q w).2.trace = w.trace ++ [Event.request .eth_chainId none])
      ∧ (∀ c, q.eth_chainId = .ok c → c ≠ "0x2105".toList →
        (ensureBaseMainnet q w).2.trace = w.trace ++ [Event.request .eth_chainId none,
          Event.request (.wallet_switchEthereumChain "0x2105".toList)
            (failureOf q.wallet_switchEthereumChain)])
      ∧ (∀ e, q.eth_chainId = .error e →
        (ensureBaseMainnet q w).2.trace = w.trace ++ [Event.request .eth_chainId (some e)]) := by
  rcases ensureBaseMainnet_cases q
    with ⟨e, hc, hens⟩ | ⟨hc, hens⟩ | ⟨c, e, hc, hne, hs, hens⟩ | ⟨c, hc, hne, hs, hens⟩
  · refine ⟨fun h => ?_, fun c h _ => ?_, fun e1 h => ?_⟩
    · rw [hc] at h
      cases h
    · rw [hc] at h
      cases h
    · rw [hc] at h
      cases h
      rw [hens]
  · refine ⟨fun _ => by rw [hens], fun c h hne => ?_, fun e1 h => ?_⟩
    · rw [hc] at h
      cases h
      exact absurd rfl hne
    · rw [hc] at h
      cases h
  · refine ⟨fun h => ?_, fun c1 h _ => ?_, fun e1 h => ?_⟩
    · rw [hc] at h
      cases h
      exact absurd rfl hne
    · rw [hens, hs]
      rfl
    · rw [hc] at h
      cases h
  · refine ⟨fun h => ?_, fun c1 h _ => ?_, fun e1 h => ?_⟩
    · rw [hc] at h
      cases h
      exact absurd rfl hne
    · rw [hens, hs]
      rfl
    · rw [hc] at h
      cases h

/-- C12. `ensureBaseMainnet` first sends `eth_chainId`; it sends
`wallet_switchEthereumChain`, asking for chain `"0x2105"`, exactly when the
answer is a value other than `"0x2105"`. With sending enabled and a provider
on another network whose switch request fails, `sendTip` rejects with the
wrong-network error, leaves the tip state as it was, and sends neither
`eth_requestAccounts` nor `wallet_sendCalls`. -/
theorem sendTip_wrong_network (cfg : Config) (host : Host) (amountUsd : List Char)
    (tip : TipState) (p : Provider) (c : List Char) (e : JsError)
    (hcan : canSendTips cfg = true) (hd : discover host = some p)
    (hc : p.eth_chainId = .ok c) (hne : c ≠ "0x2105".toList)
    (hs : p.wallet_switchEthereumChain = .error e) :
    (runSendTip cfg host amountUsd tip).1
        = .error (newError "Please switch to Base Mainnet (0x2105) in your wallet to send USDC.")
      ∧ (runSendTip cfg host amountUsd tip).2.tip = tip
      ∧ (runSendTip cfg host amountUsd tip).2.trace
        = [Event.getEthereumProvider, Event.request .eth_chainId none,
            Event.request (.wallet_switchEthereumChain "0x2105".toList) (some e)]
      ∧ (∀ payload f, Event.request (.wallet_sendCalls payload) f
          ∉ (runSendTip cfg host amountUsd tip).2.trace)
      ∧ (∀ f, Event.request .eth_requestAccounts f ∉ (runSendTip cfg host amountUsd tip).2.trace)
      ∧ (∀ text busy, Event.setCta text busy ∉ (runSendTip cfg host amountUsd tip).2.trace)
      ∧ (∀ q w, (q.eth_chainId = .ok "0x2105".toList →
            (ensureBaseMainnet q w).2.trace = w.trace ++ [Event.request .eth_chainId none])
          ∧ (∀ c1, q.eth_chainId = .ok c1 → c1 ≠ "0x2105".toList →
            (ensureBaseMainnet q w).2.trace = w.trace ++ [Event.request .eth_chainId none,
              Event.request (.wallet_switchEthereumChain "0x2105".toList)
                (failureOf q.wallet_switchEthereumChain)])
          ∧ (∀ e1, q.eth_chainId = .error e1 →
            (ensureBaseMainnet q w).2.trace
              = w.trace ++ [Event.request .eth_chainId (some e1)])) := by
  have hprep : prepareTip cfg host amountUsd { tip := tip, trace := [] }
      = (.error wrongNetworkError, { tip := tip, trace := [Event.getEthereumProvider,
          Event.request .eth_chainId none,
          Event.request (.wallet_switchEthereumChain "0x2105".toList) (some e)] }) := by
    simp only [prepareTip, bind, Run.bind, getProvider_eq, hd,
      ensureBaseMainnet_switch_failed p c e hc hne hs]
    simp
  have hrun := runSendTip_of_prepare_error cfg host amountUsd tip hcan _ _ hprep
  rw [hrun]
  refine ⟨rfl, rfl, rfl, fun payload f => by simp, fun f => by simp, fun t b => by simp,
    fun q w => ensureBaseMainnet_trace q w⟩

set_option maxRecDepth 100000 in
/-- Witness of C12: a wallet on Ethereum mainnet that answers the switch
request, which asks for `"0x2105"`, with the unknown-chain error 4902. -/
theorem sendTip_wrong_network_witness :
    (runSendTip appConfig (hostOf (failingSwitch unknownChainError)) "5".toList initialTip).1
        = .error (newError "Please switch to Base Mainnet (0x2105) in your wallet to send USDC.")
      ∧ (runSendTip appConfig (hostOf (failingSwitch unknownChainError)) "5".toList
          initialTip).2.tip = initialTip
      ∧ (runSendTip appConfig (hostOf (failingSwitch unknownChainError)) "5".toList
          initialTip).2.trace
        = [Event.getEthereumProvider, Event.request .eth_chainId none,
            Event.request (.wallet_switchEthereumChain "0x2105".toList)
              (some unknownChainError)] :=
  ⟨(sendTip_wrong_network appConfig (hostOf (failingSwitch unknownChainError)) "5".toList
      initialTip (failingSwitch unknownChainError) "0x1".toList unknownChainError
      (by decide) rfl rfl (by decide) rfl).1,
   (sendTip_wrong_network appConfig (hostOf (failingSwitch unknownChainError)) "5".toList
      initialTip (failingSwitch unknownChainError) "0x1".toList unknownChainError
      (by decide) rfl rfl (by decide) rfl).2.1,
   (sendTip_wrong_network appConfig (hostOf (failingSwitch unknownChainError)) "5".toList
      initialTip (failingSwitch unknownChainError) "0x1".toList unknownChainError
      (by decide) rfl rfl (by decide) rfl).2.2.1⟩

/-! ## The successful run -/

/-- With sending enabled, a recipient that `validateRecipientOrThrow`
accepts, a valid amount text, the network already `"0x2105"`, a connected
account and a wallet that approves the submission, the run writes exactly
the four states of a successful tip, in order, ends in the last of them, and
returns the wallet's result unchanged. -/
theorem sendTip_success_of_valid (cfg : Config) (host : Host) (amountUsd : List Char)
    (tip : TipState) (p : Provider) (accounts : List (List Char)) (u : Nat)
    (result : List Char)
    (hcan : canSendTips cfg = true)
    (hv : validateRecipientOrThrow cfg.RECIPIENT = .ok cfg.RECIPIENT)
    (hp : parseUsdToUsdcUnits amountUsd = .ok u)
    (hd : discover host = some p)
    (hc : p.eth_chainId = .ok "0x2105".toList)
    (ha : p.eth_requestAccounts = .ok accounts) (hne : accounts.headD [] ≠ [])
    (hsend : p.wallet_sendCalls (tipPayload cfg host (accounts.headD [])
      (encodeErc20TransferData cfg.RECIPIENT u)) = .ok result) :
    (runSendTip cfg host amountUsd tip).1 = .ok (some result)
      ∧ ctaStates (runSendTip cfg host amountUsd tip).2.trace
        = [("Preparing tip…".toList, true), ("Confirm in wallet".toList, true),
            ("Sending…".toList, true), ("Send again".toList, false)]
      ∧ (runSendTip cfg host amountUsd tip).2.tip
        = { tip with cta := "Send again".toList, busy := false }
      ∧ (runSendTip cfg host amountUsd tip).2.trace
        = [Event.getEthereumProvider, Event.request .eth_chainId none,
            Event.request .eth_requestAccounts none,
            Event.setCta "Preparing tip…".toList true, Event.sleep 1200,
            Event.setCta "Confirm in wallet".toList true,
            Event.request (.wallet_sendCalls (tipPayload cfg host (accounts.headD [])
              (encodeErc20TransferData cfg.RECIPIENT u))) none,
            Event.setCta "Sending…".toList true, Event.sleep 800,
            Event.setCta "Send again".toList false,
            Event.toast ("Tip sent: <b>$".toList ++ amountUsd ++ "</b> USDC".toList)
              "ok".toList] := by
  have hprep := prepareTip_of_ready cfg host amountUsd p [Event.request .eth_chainId none]
    accounts hd (Or.inl ⟨hc, rfl⟩) ha hne { tip := tip, trace := [] }
  rw [hv, hp] at hprep
  have hrun := runSendTip_of_prepare_ok cfg host amountUsd tip hcan _ _ _ hprep
  rw [hrun]
  rcases submitTip_cases p (tipPayload cfg host (accounts.headD [])
      (encodeErc20TransferData cfg.RECIPIENT u)) amountUsd
    with ⟨result1, hs1, hsub⟩ | ⟨e2, hs1, _, _⟩ | ⟨e2, hs1, _, _, _⟩
  · rw [hsend] at hs1
    cases hs1
    rw [hsub]
    refine ⟨rfl, ?_, rfl, ?_⟩
    · simp [openingEvents, ctaStates]
    · simp [openingEvents]
  · rw [hsend] at hs1
    cases hs1
  · rw [hsend] at hs1
    cases hs1

/-- C13. With the constants of app.js, for which sending is enabled: for
every valid amount text, the network already `"0x2105"`, a connected account
and a wallet that approves the submission, a run started from any tip state
(Idle included) writes exactly the states ("Preparing tip…", busy),
("Confirm in wallet", busy), ("Sending…", busy), ("Send again", not busy), in
that order with no other state in between, ends in the last of them, and
returns the wallet's result unchanged. -/
theorem sendTip_success_sequence (host : Host) (amountUsd : List Char)
    (tip : TipState) (p : Provider) (accounts : List (List Char)) (u : Nat)
    (result : List Char)
    (hp : parseUsdToUsdcUnits amountUsd = .ok u)
    (hd : discover host = some p)
    (hc : p.eth_chainId = .ok "0x2105".toList)
    (ha : p.eth_requestAccounts = .ok accounts) (hne : accounts.headD [] ≠ [])
    (hsend : p.wallet_sendCalls (tipPayload appConfig host (accounts.headD [])
      (encodeErc20TransferData RECIPIENT u)) = .ok result) :
    canSendTips appConfig = true
      ∧ (runSendTip appConfig host amountUsd tip).1 = .ok (some result)
      ∧ ctaStates (runSendTip appConfig host amountUsd tip).2.trace
        = [("Preparing tip…".toList, true), ("Confirm in wallet".toList, true),
            ("Sending…".toList, true), ("Send again".toList, false)]
      ∧ (runSendTip appConfig host amountUsd tip).2.tip
        = { tip with cta := "Send again".toList, busy := false }
      ∧ (runSendTip appConfig host amountUsd tip).2.trace
        = [Event.getEthereumProvider, Event.request .eth_chainId none,
            Event.request .eth_requestAccounts none,
            Event.setCta "Preparing tip…".toList true, Event.sleep 1200,
            Event.setCta "Confirm in wallet".toList true,
            Event.request (.wallet_sendCalls (tipPayload appConfig host (accounts.headD [])
              (encodeErc20TransferData RECIPIENT u))) none,
            Event.setCta "Sending…".toList true, Event.sleep 800,
            Event.setCta "Send again".toList false,
            Event.toast ("Tip sent: <b>$".toList ++ amountUsd ++ "</b> USDC".toList)
              "ok".toList] := by
  have hcan : canSendTips appConfig = true := by decide
  have hv : validateRecipientOrThrow appConfig.RECIPIENT = .ok appConfig.RECIPIENT := by
    decide
  have hmain := sendTip_success_of_valid appConfig host amountUsd tip p accounts u result
    hcan hv hp hd hc ha hne hsend
  exact ⟨hcan, hmain⟩

set_option maxRecDepth 100000 in
/-- Witness of C13: the amount `"5"` and a wallet on Base that approves, from
the idle state. -/
theorem sendTip_success_sequence_witness :
    (runSendTip appConfig okHost "5".toList initialTip).1 = .ok (some "0xbundle".toList)
      ∧ ctaStates (runSendTip appConfig okHost "5".toList initialTip).2.trace
        = [("Preparing tip…".toList, true), ("Confirm in wallet".toList, true),
            ("Sending…".toList, true), ("Send again".toList, false)] :=
  ⟨(sendTip_success_sequence okHost "5".toList initialTip okProvider
      ["0x1111111111111111111111111111111111111111".toList] 5000000 "0xbundle".toList
      (by decide) rfl rfl rfl (by decide) rfl).2.1,
   (sendTip_success_sequence okHost "5".toList initialTip okProvider
      ["0x1111111111111111111111111111111111111111".toList] 5000000 "0xbundle".toList
      (by decide) rfl rfl rfl (by decide) rfl).2.2.1⟩

end Yield
